import Mathlib

/-!
Verification of the pop3-migration matching engine
(`src/plugins/pop3-migration/pop3-migration-plugin.c`).

The development is a shallow embedding of the plugin's data model and of the
three matching phases, the header normalizer, the record-set builders and the
session controller.  C strings (UIDLs) and 20-byte SHA1 digests are modelled
as byte lists (`List Nat`); `strcmp`/`memcmp` become a lexicographic
comparison on byte lists; machine integers carry no overflow in the modelled
code paths (sequence numbers, UIDs and sizes are only compared and copied),
so they are modelled as `Nat`.  External collaborators (mail fetching, the
keyed cache store, stream I/O) are modelled as explicit inputs: the record
lists the phases consume already carry the sizes, cached UIDLs and header
digests that the enumeration and hashing steps would have produced.
-/

namespace Pop3Migration

/-- Byte-list model of C `strcmp` (a NUL-terminated string is the list of its
bytes before the NUL; the shorter string compares less when it is a prefix of
the other, exactly as `strcmp` does via the NUL byte).  Also serves as
`memcmp` for the fixed-length 20-byte digests. -/
def strcmpB : List Nat → List Nat → Ordering
  | [], [] => .eq
  | [], _ :: _ => .lt
  | _ :: _, [] => .gt
  | a :: as, b :: bs =>
    if a < b then .lt else if b < a then .gt else strcmpB as bs

/-- Model of `struct pop3_uidl_map` with its embedded `struct msg_map_common`.
`imap_uid = 0` is the C representation of "not linked yet" (`array_append_space`
zero-fills the record). -/
structure PopRec where
  hdr_sha1 : List Nat
  hdr_sha1_set : Bool
  pop3_seq : Nat
  imap_uid : Nat
  pop3_uidl : List Nat
  size : Nat
deriving DecidableEq

/-- Model of `struct imap_msg_map` with its embedded `struct msg_map_common`.
`pop3_uidl = none` is the C `NULL` pointer. -/
structure ImapRec where
  hdr_sha1 : List Nat
  hdr_sha1_set : Bool
  uid : Nat
  pop3_seq : Nat
  psize : Nat
  pop3_uidl : Option (List Nat)
deriving DecidableEq

/-- Model of `struct pop3_migration_settings` (the `pool` and `mailbox` fields
play no role in the matching phases). -/
structure Settings where
  all_mailboxes : Bool
  ignore_missing_uidls : Bool
  ignore_extra_uidls : Bool
  skip_size_check : Bool
  skip_uidl_cache : Bool
deriving DecidableEq

/-! ## Comparators (`*_cmp` functions of the C source) -/

/-- Comparator `pop3_uidl_map_pop3_seq_cmp`. -/
def pop3_uidl_map_pop3_seq_cmp (a b : PopRec) : Ordering := compare a.pop3_seq b.pop3_seq

/-- Comparator `imap_msg_map_uid_cmp`. -/
def imap_msg_map_uid_cmp (a b : ImapRec) : Ordering := compare a.uid b.uid

/-- Comparator `pop3_uidl_map_uidl_cmp` (plain `strcmp` of the two UIDLs). -/
def pop3_uidl_map_uidl_cmp (a b : PopRec) : Ordering := strcmpB a.pop3_uidl b.pop3_uidl

/-- Modelled from the spec: `null_strcmp`, used by `imap_msg_map_uidl_cmp`, is
defined in `src/lib/strfuncs.c`, which is not part of the given sources.  The
spec says phase 1 sorts "treating absent UIDL as sorting after any present
value", so an absent (`none`) UIDL compares greater than any present one. -/
def null_strcmp : Option (List Nat) → Option (List Nat) → Ordering
  | none, none => .eq
  | none, some _ => .gt
  | some _, none => .lt
  | some a, some b => strcmpB a b

/-- Comparator `imap_msg_map_uidl_cmp`. -/
def imap_msg_map_uidl_cmp (a b : ImapRec) : Ordering := null_strcmp a.pop3_uidl b.pop3_uidl

/-- Comparator `pop3_uidl_map_hdr_cmp` (`memcmp` of the 20-byte digests). -/
def pop3_uidl_map_hdr_cmp (a b : PopRec) : Ordering := strcmpB a.hdr_sha1 b.hdr_sha1

/-- Comparator `imap_msg_map_hdr_cmp` (`memcmp` of the 20-byte digests). -/
def imap_msg_map_hdr_cmp (a b : ImapRec) : Ordering := strcmpB a.hdr_sha1 b.hdr_sha1

/-! ## `array_sort`

Dovecot's `array_sort` is a `qsort` on the array with the given comparator.
It is modelled as `List.insertionSort` with the relation "compares
not-greater"; every theorem below that depends on the sort uses only that the
result is a sorted permutation, which any correct `qsort` produces. -/

/-- The non-strict order induced by an `Ordering`-valued comparator. -/
def cmpLe {α : Type} (cmp : α → α → Ordering) (a b : α) : Prop := cmp a b ≠ .gt

instance {α : Type} (cmp : α → α → Ordering) : DecidableRel (cmpLe cmp) :=
  fun a b => inferInstanceAs (Decidable (cmp a b ≠ .gt))

/-- Call `array_sort(&mstorage->pop3_uidl_map, pop3_uidl_map_uidl_cmp)`. -/
def sortPopByUidl (l : List PopRec) : List PopRec :=
  l.insertionSort (cmpLe pop3_uidl_map_uidl_cmp)

/-- Call `array_sort(&mbox->imap_msg_map, imap_msg_map_uidl_cmp)`. -/
def sortImapByUidl (l : List ImapRec) : List ImapRec :=
  l.insertionSort (cmpLe imap_msg_map_uidl_cmp)

/-- Call `array_sort(&mstorage->pop3_uidl_map, pop3_uidl_map_pop3_seq_cmp)`. -/
def sortPopBySeq (l : List PopRec) : List PopRec :=
  l.insertionSort (cmpLe pop3_uidl_map_pop3_seq_cmp)

/-- Call `array_sort(&mbox->imap_msg_map, imap_msg_map_uid_cmp)`. -/
def sortImapByUid (l : List ImapRec) : List ImapRec :=
  l.insertionSort (cmpLe imap_msg_map_uid_cmp)

/-- Call `array_sort(&mstorage->pop3_uidl_map, pop3_uidl_map_hdr_cmp)`. -/
def sortPopByHdr (l : List PopRec) : List PopRec :=
  l.insertionSort (cmpLe pop3_uidl_map_hdr_cmp)

/-- Call `array_sort(&mbox->imap_msg_map, imap_msg_map_hdr_cmp)`. -/
def sortImapByHdr (l : List ImapRec) : List ImapRec :=
  l.insertionSort (cmpLe imap_msg_map_hdr_cmp)

/-! ## Phase 2: `pop3_uidl_assign_by_size`

The C function walks both natural-order arrays in lock-step from index 0 up
to `count = I_MIN(pop3_count, imap_count)`, breaking out of the loop at the
first index where a stop condition holds, and records the loop index in
`mbox->first_unfound_idx`.  The recursion below walks both lists together;
the returned `Nat` is the final loop index `i` (the number of positions
walked past). -/

/-- The test `i+1 < count && pop3_map[i].size == pop3_map[i+1].size` of the
phase-2 loop, expressed on the two list tails that follow position `i`
(`i+1 < count` holds exactly when both tails are non-empty). -/
def ambNext (p : PopRec) (ps : List PopRec) (qs : List ImapRec) : Bool :=
  match ps, qs with
  | p2 :: _, _ :: _ => p.size == p2.size
  | _, _ => false

def assignBySizeGo (s : Settings) :
    List PopRec → List ImapRec → List PopRec × List ImapRec × Nat
  | [], qs => ([], qs, 0)
  | p :: ps, [] => (p :: ps, [], 0)
  | p :: ps, q :: qs =>
    match q.pop3_uidl with
    | some u =>
      -- some of the UIDLs were already found cached
      if strcmpB p.pop3_uidl u = .eq then
        let r := assignBySizeGo s ps qs
        (p :: r.1, q :: r.2.1, r.2.2 + 1)
      else
        -- mismatch - can't trust the sizes
        (p :: ps, q :: qs, 0)
    | none =>
      if p.size != q.psize || s.skip_size_check then
        (p :: ps, q :: qs, 0)
      else if ambNext p ps qs then
        -- two messages with same size, don't trust them
        (p :: ps, q :: qs, 0)
      else
        let p2 := { p with imap_uid := q.uid }
        let q2 := { q with pop3_uidl := some p.pop3_uidl, pop3_seq := p.pop3_seq }
        let r := assignBySizeGo s ps qs
        (p2 :: r.1, q2 :: r.2.1, r.2.2 + 1)

/-- Result of `pop3_uidl_assign_by_size`: the two mutated arrays, the value
stored into `mbox->first_unfound_idx`, and the function's `bool` return. -/
structure Phase2Result where
  pop3 : List PopRec
  imap : List ImapRec
  first_unfound_idx : Nat
  all_matched : Bool
deriving DecidableEq

/-- Model of `pop3_uidl_assign_by_size`; the returned flag is the C
`return i == count && imap_count == pop3_count`. -/
def pop3_uidl_assign_by_size (s : Settings) (pop3 : List PopRec)
    (imap : List ImapRec) : Phase2Result :=
  let r := assignBySizeGo s pop3 imap
  { pop3 := r.1, imap := r.2.1, first_unfound_idx := r.2.2,
    all_matched := r.2.2 == min pop3.length imap.length
      && imap.length == pop3.length }

/-- The stop condition of the phase-2 loop at index `i` of the two input
arrays (evaluated on the untouched inputs; the loop reads position `i` before
mutating it, mutates nothing beyond position `i` before reaching it, and
never mutates any `size`/`psize`/`uid` field, so this is the value the C code
tests).  `ps[i+1]?`/`qs[i+1]?` both being `some` is exactly `i+1 < count`. -/
def phase2Stop (s : Settings) (ps : List PopRec) (qs : List ImapRec) (i : Nat) : Bool :=
  match ps[i]?, qs[i]? with
  | some p, some q =>
    (match q.pop3_uidl with
     | some u => strcmpB p.pop3_uidl u != .eq
     | none =>
       p.size != q.psize || s.skip_size_check ||
       (match ps[i+1]?, qs[i+1]? with
        | some p2, some _ => p.size == p2.size
        | _, _ => false))
  | _, _ => false

/-! ## Phase 1: `pop3_uidl_assign_cached`

The C function returns immediately when `skip_uidl_cache` is set; otherwise
it sorts both arrays by UIDL and runs a cursor-based join: for each IMAP
record with a cached (non-NULL) `pop3_uidl`, the inner loop advances the
POP3 cursor while `strcmp(imap_uidl, pop3_uidl) < 0` and breaks as soon as
`ret >= 0`; on `ret == 0` it copies `pop3_seq` to the IMAP record and the
IMAP `uid` into the POP3 record, leaving the cursor where it broke. -/

/-- Helper walking the suffix of the POP3 array that starts at index `k`:
returns the first index whose record breaks the loop, or the index one past
the walked suffix. -/
def findBreakGo (u : List Nat) : List PopRec → Nat → Nat
  | [], k => k
  | p :: tl, k =>
    if strcmpB u p.pop3_uidl ≠ .lt then k else findBreakGo u tl (k + 1)

/-- The inner `for (; pop3_idx < pop3_count; pop3_idx++)` loop of
`pop3_uidl_assign_cached`: returns the index at which the loop breaks
(`strcmp(u, pop3_map[idx].pop3_uidl) >= 0`, the C `ret >= 0` test), or
`pop3_count` when it runs off the end. -/
def findBreakIdx (u : List Nat) (ps : List PopRec) (pidx : Nat) : Nat :=
  findBreakGo u (ps.drop pidx) pidx

def assignCachedGo (ps : List PopRec) (pidx : Nat) :
    List ImapRec → List PopRec × List ImapRec
  | [] => (ps, [])
  | q :: qs =>
    match q.pop3_uidl with
    | none =>
      let r := assignCachedGo ps pidx qs
      (r.1, q :: r.2)
    | some u =>
      let j := findBreakIdx u ps pidx
      match ps[j]? with
      | some p =>
        if strcmpB u p.pop3_uidl = .eq then
          let q2 := { q with pop3_seq := p.pop3_seq }
          let ps2 := ps.set j { p with imap_uid := q.uid }
          let r := assignCachedGo ps2 j qs
          (r.1, q2 :: r.2)
        else
          let r := assignCachedGo ps j qs
          (r.1, q :: r.2)
      | none =>
        let r := assignCachedGo ps j qs
        (r.1, q :: r.2)

/-- Model of `pop3_uidl_assign_cached` (the whole function, sorts included). -/
def pop3_uidl_assign_cached (s : Settings) (pop3 : List PopRec)
    (imap : List ImapRec) : List PopRec × List ImapRec :=
  if s.skip_uidl_cache then (pop3, imap)
  else assignCachedGo (sortPopByUidl pop3) 0 (sortImapByUidl imap)

/-! ## Phase 3: `pop3_uidl_assign_by_hdr_hash`

The digest acquisition (`pop3_map_read_hdr_hashes` / `imap_map_read_hdr_hashes`)
is external I/O; the records entering this function already carry whatever
`hdr_sha1`/`hdr_sha1_set` values that step produced.  The C merge loop, after
linking a pair, leaves both indices unchanged; the next two iterations then
skip the just-linked records (the POP3 record now has `imap_uid != 0`, a real
IMAP UID, and the IMAP record has a non-NULL `pop3_uidl`), which advances
both indices.  The recursion below performs those three iterations as one
step. -/

/-- The phase-3 merge loop, with an explicit fuel argument making the mutual
descent on the two lists structural (each loop step consumes at least one
list element, so `ps.length + qs.length` fuel is always enough; the fuel-0
case is unreachable). -/
def assignByHdrGoF : Nat → List PopRec → List ImapRec → List PopRec × List ImapRec
  | 0, ps, qs => (ps, qs)
  | _ + 1, [], qs => ([], qs)
  | _ + 1, p :: ps, [] => (p :: ps, [])
  | fuel + 1, p :: ps, q :: qs =>
    if !p.hdr_sha1_set || p.imap_uid != 0 then
      let r := assignByHdrGoF fuel ps (q :: qs)
      (p :: r.1, r.2)
    else if !q.hdr_sha1_set || q.pop3_uidl.isSome then
      let r := assignByHdrGoF fuel (p :: ps) qs
      (r.1, q :: r.2)
    else
      match strcmpB p.hdr_sha1 q.hdr_sha1 with
      | .lt =>
        let r := assignByHdrGoF fuel ps (q :: qs)
        (p :: r.1, r.2)
      | .gt =>
        let r := assignByHdrGoF fuel (p :: ps) qs
        (r.1, q :: r.2)
      | .eq =>
        let p2 := { p with imap_uid := q.uid }
        let q2 := { q with pop3_uidl := some p.pop3_uidl, pop3_seq := p.pop3_seq }
        let r := assignByHdrGoF fuel ps qs
        (p2 :: r.1, q2 :: r.2)

def assignByHdrGo (ps : List PopRec) (qs : List ImapRec) :
    List PopRec × List ImapRec :=
  assignByHdrGoF (ps.length + qs.length) ps qs

/-- The `missing_uids_count` tally: a POP3 record with `imap_uid != 0` is
matched, one whose digest was never set was treated as expunged and is
ignored, and the rest are missing. -/
def missingCount (ps : List PopRec) : Nat :=
  (ps.filter (fun p => p.imap_uid == 0 && p.hdr_sha1_set)).length

/-- The failure decision at the end of `pop3_uidl_assign_by_hdr_hash`
(`return -1` exactly when the error branch is taken; the log strings and the
first-missing bookkeeping feed only the message text). -/
def reconcileFails (s : Settings) (ps : List PopRec) (imap_count : Nat) : Bool :=
  let missing := missingCount ps
  if missing > 0 && !s.all_mailboxes then
    let all_imap_mails_found := imap_count + missing == ps.length
    if all_imap_mails_found && s.ignore_extra_uidls then false
    else !s.ignore_missing_uidls
  else false

/-- Model of `pop3_uidl_assign_by_hdr_hash` minus the digest acquisition: sort both
arrays by digest, merge-join, decide failure, and on success sort both
arrays back into natural order.  `none` models `return -1`. -/
def pop3_uidl_assign_by_hdr_hash (s : Settings) (ps : List PopRec)
    (qs : List ImapRec) : Option (List PopRec × List ImapRec) :=
  let ps1 := sortPopByHdr ps
  let qs1 := sortImapByHdr qs
  let r := assignByHdrGo ps1 qs1
  if reconcileFails s r.1 qs1.length then none
  else some (sortPopBySeq r.1, sortImapByUid r.2)

/-! ## The full matching pipeline of `pop3_migration_uidl_sync`

(The POP3/IMAP enumeration, the cache write-back `imap_uidls_add_to_cache`
and the digest acquisition are external; the pipeline takes the two freshly
built record lists and returns the final lists together with
`first_unfound_idx`, or `none` when the sync fails.) -/

def uidlSyncMatch (s : Settings) (pop3 : List PopRec) (imap : List ImapRec) :
    Option (List PopRec × List ImapRec × Nat) :=
  let c := pop3_uidl_assign_cached s pop3 imap
  let p2 := sortPopBySeq c.1
  let q2 := sortImapByUid c.2
  let r := pop3_uidl_assign_by_size s p2 q2
  if r.all_matched then some (r.pop3, r.imap, r.first_unfound_idx)
  else
    match pop3_uidl_assign_by_hdr_hash s r.pop3 r.imap with
    | none => none
    | some pr => some (pr.1, pr.2, r.first_unfound_idx)

/-! ## Sample records used by concrete witnesses and counterexamples -/

/-- A fresh POP3 record exactly as `pop3_map_read` appends it. -/
def mkPop (seq : Nat) (uidl : List Nat) (size : Nat) : PopRec :=
  { hdr_sha1 := [], hdr_sha1_set := false, pop3_seq := seq, imap_uid := 0,
    pop3_uidl := uidl, size := size }

/-- A fresh IMAP record exactly as `imap_map_read` appends it. -/
def mkImap (uid : Nat) (psize : Nat) (uidl : Option (List Nat)) : ImapRec :=
  { hdr_sha1 := [], hdr_sha1_set := false, uid := uid, pop3_seq := 0,
    psize := psize, pop3_uidl := uidl }

/-- Settings with every flag off (the C defaults). -/
def defaultSettings : Settings :=
  { all_mailboxes := false, ignore_missing_uidls := false,
    ignore_extra_uidls := false, skip_size_check := false,
    skip_uidl_cache := false }

/-! ## Reconciliation condition as claim C4 words it -/

/-- Count of IMAP records left unmatched (no `pop3_uidl`). -/
def unmatchedImapCount (qs : List ImapRec) : Nat :=
  (qs.filter (fun q => q.pop3_uidl == none)).length

/-- The failure condition exactly as claim C4 words it ("the IMAP
unmatched-plus-missing count equals the POP3 total").  Stated for comparison
with the code's `reconcileFails`, which compares the TOTAL IMAP record count
plus the missing count against the POP3 total. -/
def c4ClaimFails (s : Settings) (ps : List PopRec) (qs : List ImapRec) : Bool :=
  let missing := missingCount ps
  missing > 0 && !s.all_mailboxes && !s.ignore_missing_uidls &&
    !(s.ignore_extra_uidls && (unmatchedImapCount qs + missing == ps.length))

/-! ## Session controller (`pop3_migration_uidl_sync_if_needed`,
`pop3_migration_get_special`) -/

/-- Sticky per-mailbox state: the `uidl_synced` / `uidl_sync_failed` bits of
`struct pop3_migration_mailbox`. -/
structure MboxState where
  uidl_synced : Bool
  uidl_sync_failed : Bool
deriving DecidableEq

/-- Fields relevant to the intercepted `get_special`. -/
inductive MailField
  | uidlBackend
  | pop3Order
  | otherField
deriving DecidableEq

/-- Observable outcome of one `get_special` call. -/
inductive SpecialValue
  | uidl (u : List Nat)
  | order (n : Nat)
  | fallback
  | tempError
deriving DecidableEq

/-- Model of `pop3_migration_uidl_sync_if_needed`.  `syncOk` is the outcome
the (external-I/O) `pop3_migration_uidl_sync` run would have; on success that
run sets `uidl_synced`.  Returns the new state, whether the call returned 0,
and whether a sync run was actually executed. -/
def pop3_migration_uidl_sync_if_needed (syncOk : Bool) (st : MboxState) :
    MboxState × Bool × Bool :=
  if st.uidl_synced then (st, true, false)
  else if st.uidl_sync_failed then
    ({ st with uidl_sync_failed := true }, false, false)
  else if syncOk then
    ({ st with uidl_synced := true }, true, true)
  else
    ({ st with uidl_sync_failed := true }, false, true)

/-- Model of `pop3_migration_get_special` (the `array_bsearch` over the
uid-sorted map is modelled as `List.find?`).  Returns the new state, whether
a sync run was executed, and the observable result. -/
def pop3_migration_get_special (syncOk : Bool) (st : MboxState)
    (imapMap : List ImapRec) (field : MailField) (uid : Nat) :
    MboxState × Bool × SpecialValue :=
  if field = .uidlBackend ∨ field = .pop3Order then
    let r := pop3_migration_uidl_sync_if_needed syncOk st
    if !r.2.1 then (r.1, r.2.2, .tempError)
    else
      match imapMap.find? (fun q => q.uid == uid) with
      | some q =>
        match q.pop3_uidl with
        | some u =>
          (r.1, r.2.2, if field = .uidlBackend then .uidl u else .order q.pop3_seq)
        | none => (r.1, r.2.2, .fallback)
      | none => (r.1, r.2.2, .fallback)
  else (st, false, .fallback)

/-! ## Header digesting (`get_hdr_sha1`) -/

/-- Outcome of one external fetch call (`mail_get_hdr_stream` /
`mail_get_stream_because`): success, failure whose last error is
`MAIL_ERROR_EXPUNGED`, or any other failure. -/
inductive FetchResult
  | ok
  | errExpunged
  | errOther
deriving DecidableEq

/-- External inputs of one `get_hdr_sha1` run: the header-stream fetch, the
hashing pass over it, the body-stream fallback fetch and the hashing pass
over that (`none` models `pop3_migration_get_hdr_sha1` failing with a stream
error; otherwise it yields the digest and the `have_eoh` flag). -/
structure FetchEnv where
  hdr_fetch : FetchResult
  hdr_hash : Option (List Nat × Bool)
  body_fetch : FetchResult
  body_hash : Option (List Nat × Bool)
deriving DecidableEq

/-- Result of `get_hdr_sha1`: the C return value, the digest left in
`sha1_r` when it returns 1, and the digest handed to
`index_mail_cache_add_idx` (the per-message cache persistence), if any. -/
structure HdrSha1Out where
  ret : Int
  digest : Option (List Nat)
  persisted : Option (List Nat)
deriving DecidableEq

/-- Model of `get_hdr_sha1` (the static wrapper, lines 306-379): header
stream first, persist when `have_eoh`; otherwise fall back to the full body
stream and persist whatever that hashing pass produced, `have_eoh` or not
(only a warning distinguishes the truncated case). -/
def get_hdr_sha1 (env : FetchEnv) : HdrSha1Out :=
  match env.hdr_fetch with
  | .errExpunged => { ret := 0, digest := none, persisted := none }
  | .errOther => { ret := -1, digest := none, persisted := none }
  | .ok =>
    match env.hdr_hash with
    | none => { ret := -1, digest := none, persisted := none }
    | some (d, eoh) =>
      if eoh then { ret := 1, digest := some d, persisted := some d }
      else
        match env.body_fetch with
        | .errExpunged => { ret := 0, digest := none, persisted := none }
        | .errOther => { ret := -1, digest := none, persisted := none }
        | .ok =>
          match env.body_hash with
          | none => { ret := -1, digest := none, persisted := none }
          | some (d2, _) => { ret := 1, digest := some d2, persisted := some d2 }

/-- One record's step of `map_read_hdr_hashes`: `ret < 0` aborts the walk,
`ret = 0` (expunged) leaves the record without a digest, `ret > 0` stores
the digest and sets `hdr_sha1_set`. -/
def readHdrForRec (env : FetchEnv) (p : PopRec) : Option PopRec :=
  let r := get_hdr_sha1 env
  if r.ret < 0 then none
  else if r.ret = 0 then some p
  else
    match r.digest with
    | some d => some { p with hdr_sha1 := d, hdr_sha1_set := true }
    | none => some p

/-! ## Header normalizer (`pop3_header_filter_callback`) -/

/-- One parsed header line as the header parser hands it to the filter
callback (`name`/`value` are byte lists, `middle_len` the length of the
separator bytes, `continued` marks continuation lines, `eoh` the
end-of-headers line). -/
structure HdrLine where
  eoh : Bool
  continued : Bool
  name : List Nat
  middle_len : Nat
  value : List Nat
deriving DecidableEq

/-- Model of `struct pop3_hdr_context`. -/
structure HdrCtx where
  have_eoh : Bool
  stop : Bool
deriving DecidableEq

/-- Model of `header_name_is_valid`: every byte strictly between 0x20 and
0x7f. -/
def header_name_is_valid (name : List Nat) : Bool :=
  name.all (fun b => 0x20 < b && b < 0x7f)

/-- Model of `header_value_want_skip`: the value is all blanks/tabs. -/
def header_value_want_skip (hdr : HdrLine) : Bool :=
  hdr.value.all (fun b => b == 32 || b == 9)

/-- Model of `pop3_header_filter_callback` on one line: takes the `*matched`
value pre-set by the exclude-list filtering, returns the new `*matched`
(true = line excluded) and the new context.  The `hdr == NULL` call is the
identity and is omitted. -/
def pop3_header_filter_callback (hdr : HdrLine) (matched : Bool)
    (ctx : HdrCtx) : Bool × HdrCtx :=
  if hdr.eoh then
    let ctx2 : HdrCtx := { ctx with have_eoh := true }
    if ctx2.stop then (true, ctx2) else (matched, ctx2)
  else
    let step1 : Bool × HdrCtx :=
      if hdr.value.length > 0 && hdr.middle_len == 0 && hdr.name.length == 0 &&
         hdr.value.all (fun b => b == 13) then
        -- CR+CR+LF: stop header processing entirely
        (matched, { ctx with stop := true })
      else if !hdr.continued && hdr.middle_len == 0 then
        -- not a valid "key: value" header
        (true, ctx)
      else if hdr.continued && header_value_want_skip hdr then
        (true, ctx)
      else (matched, ctx)
    if step1.2.stop then (true, step1.2)
    else if !header_name_is_valid hdr.name then (true, step1.2)
    else step1

/-- Folding the callback over a header-line stream (each line paired with the
`*matched` flag the exclude-list filtering pre-set for it), recording every
line's final excluded flag. -/
def filter_headers : List (HdrLine × Bool) → HdrCtx → List Bool × HdrCtx
  | [], ctx => ([], ctx)
  | (h, m0) :: tl, ctx =>
    let r1 := pop3_header_filter_callback h m0 ctx
    let rest := filter_headers tl r1.2
    (r1.1 :: rest.1, rest.2)

/-- A line is a stopper when it has a non-empty value of CR bytes only, no
separator and no name (and is not the end-of-headers marker). -/
def stopLine (h : HdrLine) : Bool :=
  !h.eoh && (h.value.length > 0 && h.middle_len == 0 && h.name.length == 0 &&
    h.value.all (fun b => b == 13))

/-! ## POP3-side record-set builder (`pop3_map_read`) -/

/-- One enumerated POP3 message: its sequence number, LIST size and UIDL as
the external search/fetch collaborator returns them. -/
structure Pop3MailEntry where
  seq : Nat
  size : Nat
  uidl : List Nat
deriving DecidableEq

/-- The C `UOFF_T_MAX` initial value of `size`, kept when size-checking is
skipped. -/
def uoffMax : Nat := 2 ^ 64 - 1

/-- The record-building loop of `pop3_map_read` (success path): one record
per message, except that a message with an empty UIDL is skipped with a
warning and never stored. -/
def pop3_map_read_records (s : Settings) (mails : List Pop3MailEntry) :
    List PopRec :=
  mails.filterMap (fun m =>
    if m.uidl = [] then none
    else some { hdr_sha1 := [], hdr_sha1_set := false, pop3_seq := m.seq,
                imap_uid := 0, pop3_uidl := m.uidl,
                size := if s.skip_size_check then uoffMax else m.size })

/-! ## Consistency predicate (claims C2/C3) -/

/-- POP3-to-IMAP link consistency: every linked POP3 record points at an IMAP
record that carries that record's UIDL. -/
def PopToImapConsistent (ps : List PopRec) (qs : List ImapRec) : Prop :=
  ∀ p ∈ ps, p.imap_uid ≠ 0 →
    ∃ q ∈ qs, q.uid = p.imap_uid ∧ q.pop3_uidl = some p.pop3_uidl

/-! ## Concrete scenarios (UIDLs are the ASCII bytes of a, b, c) -/

/-- Spec scenario A: three POP3 messages, UIDLs a/b/c, sizes 10/20/30. -/
def scenarioA_pop3 : List PopRec := [mkPop 1 [97] 10, mkPop 2 [98] 20, mkPop 3 [99] 30]

/-- Spec scenario A: matching IMAP side, UIDs 1/2/3, same sizes, no cache. -/
def scenarioA_imap : List ImapRec := [mkImap 1 10 none, mkImap 2 20 none, mkImap 3 30 none]

/-- Spec scenario B flavour: first two POP3 messages share size 15. -/
def scenarioB_pop3 : List PopRec := [mkPop 1 [97] 15, mkPop 2 [98] 15, mkPop 3 [99] 40]

/-- Spec scenario B flavour: IMAP side with the same sizes, no cache. -/
def scenarioB_imap : List ImapRec := [mkImap 1 15 none, mkImap 2 15 none, mkImap 3 40 none]

/-- Two POP3 records with UIDLs a, b (already in UIDL order). -/
def cachePair_pop3 : List PopRec := [mkPop 1 [97] 10, mkPop 2 [98] 20]

/-- Two IMAP records whose cached UIDLs a, b both equal a POP3 UIDL. -/
def cachePair_imap : List ImapRec := [mkImap 1 10 (some [97]), mkImap 2 20 (some [98])]

/-- One POP3 record with UIDL b, size 10. -/
def overwrite_pop3 : List PopRec := [mkPop 1 [98] 10]

/-- IMAP records: UID 1 (size 10, nothing cached) and UID 2 (size 99, cached
UIDL b).  Phase 1 links POP3 b to UID 2; phase 2 then relinks it to UID 1. -/
def overwrite_imap : List ImapRec := [mkImap 1 10 none, mkImap 2 99 (some [98])]

/-- Settings with only "ignore extra UIDLs" enabled. -/
def extraSettings : Settings := { defaultSettings with ignore_extra_uidls := true }

/-- Post-merge state: POP3 record 1 (UIDL a) matched to UID 1, POP3 record 2
(UIDL b) unmatched with its digest computed. -/
def extra_pop3 : List PopRec :=
  [{ mkPop 1 [97] 10 with imap_uid := 1, hdr_sha1 := [1], hdr_sha1_set := true },
   { mkPop 2 [98] 20 with hdr_sha1 := [2], hdr_sha1_set := true }]

/-- Post-merge state: a single IMAP record, already matched (UIDL a). -/
def extra_imap : List ImapRec := [{ mkImap 1 10 (some [97]) with pop3_seq := 1 }]

/-- Fetch environment of a message whose both hashing passes succeed without
ever finding the end-of-headers marker (a truncated email). -/
def truncEnv : FetchEnv :=
  { hdr_fetch := FetchResult.ok, hdr_hash := some ([5], false),
    body_fetch := FetchResult.ok, body_hash := some ([5], false) }

/-- Fetch environment of a message expunged before its header could be
fetched. -/
def expungedEnv : FetchEnv :=
  { hdr_fetch := FetchResult.errExpunged, hdr_hash := none,
    body_fetch := FetchResult.ok, body_hash := none }

/-- A single unmatched POP3 record whose digest was never computed (treated
as expunged). -/
def expunged_pop3 : List PopRec := [mkPop 1 [97] 10]

/-- The malformed CR-only line (empty name, empty separator, value one CR
byte). -/
def stopLineEx : HdrLine :=
  { eoh := false, continued := false, name := [], middle_len := 0, value := [13] }

/-- An ordinary "X: y" header line. -/
def normalLineEx : HdrLine :=
  { eoh := false, continued := false, name := [88], middle_len := 2, value := [121] }

/-! # Theorems -/

/-! ## Basic facts about the byte-list comparison -/

theorem strcmpB_eq_iff : ∀ a b : List Nat, strcmpB a b = .eq ↔ a = b := by
  intro a
  induction a with
  | nil => intro b; cases b <;> simp [strcmpB]
  | cons x xs ih =>
    intro b
    cases b with
    | nil => simp [strcmpB]
    | cons y ys =>
      simp only [strcmpB]
      rcases Nat.lt_trichotomy x y with h | h | h
      · simp [h, Nat.ne_of_lt h]
      · subst h
        simp [Nat.lt_irrefl, ih]
      · have hne : x ≠ y := by omega
        simp [Nat.lt_asymm h, h, hne]

/-! ## Characterization of the phase-2 walk -/

theorem phase2Stop_succ (s : Settings) (p : PopRec) (q : ImapRec)
    (ps : List PopRec) (qs : List ImapRec) (i : Nat) :
    phase2Stop s (p :: ps) (q :: qs) (i + 1) = phase2Stop s ps qs i := by
  simp [phase2Stop, List.getElem?_cons_succ]

/-- Full characterization of the `pop3_uidl_assign_by_size` loop: lengths are
preserved; the final loop index is at most `count`; every position at or past
the final index is untouched; no position before the final index satisfies
the stop condition; the final index satisfies it whenever the loop stopped
early; and every position before the final index is linked (either it already
carried a matching cached UIDL and is untouched, or the loop cross-linked the
pair). -/
theorem assignBySizeGo_spec (s : Settings) :
    ∀ ps qs,
      (assignBySizeGo s ps qs).1.length = ps.length ∧
      (assignBySizeGo s ps qs).2.1.length = qs.length ∧
      ((assignBySizeGo s ps qs).2.2 ≤ ps.length ∧
        (assignBySizeGo s ps qs).2.2 ≤ qs.length) ∧
      (∀ i, (assignBySizeGo s ps qs).2.2 ≤ i →
        (assignBySizeGo s ps qs).1[i]? = ps[i]? ∧
        (assignBySizeGo s ps qs).2.1[i]? = qs[i]?) ∧
      (∀ i, i < (assignBySizeGo s ps qs).2.2 → phase2Stop s ps qs i = false) ∧
      ((assignBySizeGo s ps qs).2.2 < ps.length →
        (assignBySizeGo s ps qs).2.2 < qs.length →
        phase2Stop s ps qs (assignBySizeGo s ps qs).2.2 = true) ∧
      (∀ i, i < (assignBySizeGo s ps qs).2.2 →
        ∃ p q, ps[i]? = some p ∧ qs[i]? = some q ∧
          ((q.pop3_uidl = some p.pop3_uidl ∧
            (assignBySizeGo s ps qs).1[i]? = some p ∧
            (assignBySizeGo s ps qs).2.1[i]? = some q) ∨
           (q.pop3_uidl = none ∧
            (assignBySizeGo s ps qs).1[i]? = some { p with imap_uid := q.uid } ∧
            (assignBySizeGo s ps qs).2.1[i]? =
              some { q with pop3_uidl := some p.pop3_uidl, pop3_seq := p.pop3_seq }))) := by
  intro ps
  induction ps with
  | nil =>
    intro qs
    simp [assignBySizeGo]
  | cons p ps ih =>
    intro qs
    cases qs with
    | nil => simp [assignBySizeGo]
    | cons q qs =>
      cases hq : q.pop3_uidl with
      | some u =>
        by_cases he : strcmpB p.pop3_uidl u = .eq
        · -- cached UIDL present and equal: continue
          have hu : u = p.pop3_uidl := ((strcmpB_eq_iff _ _).mp he).symm
          subst hu
          have hr : assignBySizeGo s (p :: ps) (q :: qs) =
              (p :: (assignBySizeGo s ps qs).1, q :: (assignBySizeGo s ps qs).2.1,
               (assignBySizeGo s ps qs).2.2 + 1) := by
            simp [assignBySizeGo, hq, he]
          obtain ⟨h1, h2, h3, h4, h5, h6, h7⟩ := ih qs
          rw [hr]
          refine ⟨by simp [h1], by simp [h2], by simp only [List.length_cons]; exact
              ⟨Nat.succ_le_succ h3.1, Nat.succ_le_succ h3.2⟩, ?_, ?_, ?_, ?_⟩
          · intro i hi
            cases i with
            | zero =>
              exact absurd (show (assignBySizeGo s ps qs).2.2 + 1 ≤ 0 from hi) (by omega)
            | succ j =>
              have hi2 : (assignBySizeGo s ps qs).2.2 + 1 ≤ j + 1 := hi
              have := h4 j (by omega)
              simpa [List.getElem?_cons_succ] using this
          · intro i hi
            cases i with
            | zero =>
              simp only [phase2Stop, List.getElem?_cons_zero, hq]
              rw [he]
              rfl
            | succ j =>
              have hi2 : j + 1 < (assignBySizeGo s ps qs).2.2 + 1 := hi
              rw [phase2Stop_succ]
              exact h5 j (by omega)
          · intro hl1 hl2
            have hl1a : (assignBySizeGo s ps qs).2.2 + 1 < ps.length + 1 := hl1
            have hl2a : (assignBySizeGo s ps qs).2.2 + 1 < qs.length + 1 := hl2
            have hs : phase2Stop s (p :: ps) (q :: qs)
                ((assignBySizeGo s ps qs).2.2 + 1) = true := by
              rw [phase2Stop_succ]
              exact h6 (by omega) (by omega)
            exact hs
          · intro i hi
            cases i with
            | zero =>
              exact ⟨p, q, by simp, by simp, Or.inl ⟨hq, by simp, by simp⟩⟩
            | succ j =>
              have hi2 : j + 1 < (assignBySizeGo s ps qs).2.2 + 1 := hi
              obtain ⟨p1, q1, hp1, hq1, hlink⟩ := h7 j (by omega)
              exact ⟨p1, q1, by simpa using hp1, by simpa using hq1, by
                rcases hlink with ⟨a, b, c⟩ | ⟨a, b, c⟩
                · exact Or.inl ⟨a, by simpa using b, by simpa using c⟩
                · exact Or.inr ⟨a, by simpa using b, by simpa using c⟩⟩
        · -- cached UIDL present and different: stop here
          have hr : assignBySizeGo s (p :: ps) (q :: qs) = (p :: ps, q :: qs, 0) := by
            simp [assignBySizeGo, hq, he]
          rw [hr]
          refine ⟨rfl, rfl, ⟨Nat.zero_le _, Nat.zero_le _⟩, fun i _ => ⟨rfl, rfl⟩,
            fun i hi => absurd hi (Nat.not_lt_zero i), ?_,
            fun i hi => absurd hi (Nat.not_lt_zero i)⟩
          intro _ _
          simp only [phase2Stop, List.getElem?_cons_zero, hq]
          cases hx : strcmpB p.pop3_uidl u with
          | lt => rfl
          | eq => exact absurd hx he
          | gt => rfl
      | none =>
        by_cases hsz : (p.size != q.psize || s.skip_size_check) = true
        · -- size mismatch or size checking disabled: stop here
          have hr : assignBySizeGo s (p :: ps) (q :: qs) = (p :: ps, q :: qs, 0) := by
            simp [assignBySizeGo, hq, hsz]
          rw [hr]
          refine ⟨rfl, rfl, ⟨Nat.zero_le _, Nat.zero_le _⟩, fun i _ => ⟨rfl, rfl⟩,
            fun i hi => absurd hi (Nat.not_lt_zero i), ?_,
            fun i hi => absurd hi (Nat.not_lt_zero i)⟩
          intro _ _
          simp only [phase2Stop, List.getElem?_cons_zero, hq]
          simp [hsz]
        · by_cases hamb : ambNext p ps qs = true
          · -- two same-sized POP3 messages: stop here
            have hr : assignBySizeGo s (p :: ps) (q :: qs) = (p :: ps, q :: qs, 0) := by
              simp [assignBySizeGo, hq, hsz, hamb]
            rw [hr]
            refine ⟨rfl, rfl, ⟨Nat.zero_le _, Nat.zero_le _⟩, fun i _ => ⟨rfl, rfl⟩,
              fun i hi => absurd hi (Nat.not_lt_zero i), ?_,
              fun i hi => absurd hi (Nat.not_lt_zero i)⟩
            intro _ _
            cases ps with
            | nil => simp [ambNext] at hamb
            | cons p2 ps =>
              cases qs with
              | nil => simp [ambNext] at hamb
              | cons q2 qs =>
                simp only [ambNext] at hamb
                simp only [phase2Stop, List.getElem?_cons_succ,
                  List.getElem?_cons_zero, hq]
                simp [hamb]
          · -- sizes match unambiguously: link and continue
            have hr : assignBySizeGo s (p :: ps) (q :: qs) =
                ({ p with imap_uid := q.uid } :: (assignBySizeGo s ps qs).1,
                 { q with pop3_uidl := some p.pop3_uidl, pop3_seq := p.pop3_seq } ::
                   (assignBySizeGo s ps qs).2.1,
                 (assignBySizeGo s ps qs).2.2 + 1) := by
              simp [assignBySizeGo, hq, hsz, hamb]
            obtain ⟨h1, h2, h3, h4, h5, h6, h7⟩ := ih qs
            rw [hr]
            refine ⟨by simp [h1], by simp [h2], by simp only [List.length_cons]; exact
                ⟨Nat.succ_le_succ h3.1, Nat.succ_le_succ h3.2⟩, ?_, ?_, ?_, ?_⟩
            · intro i hi
              cases i with
              | zero =>
              exact absurd (show (assignBySizeGo s ps qs).2.2 + 1 ≤ 0 from hi) (by omega)
              | succ j =>
                have hi2 : (assignBySizeGo s ps qs).2.2 + 1 ≤ j + 1 := hi
                have := h4 j (by omega)
                simpa [List.getElem?_cons_succ] using this
            · intro i hi
              cases i with
              | zero =>
                simp only [Bool.not_eq_true] at hsz
                cases ps with
                | nil =>
                  simp only [phase2Stop, List.getElem?_cons_zero, hq,
                    List.getElem?_cons_succ, List.getElem?_nil]
                  simp [hsz]
                | cons p2 ps =>
                  cases qs with
                  | nil =>
                    simp only [phase2Stop, List.getElem?_cons_zero, hq,
                      List.getElem?_cons_succ, List.getElem?_nil]
                    simp [hsz]
                  | cons q2 qs =>
                    simp only [ambNext, Bool.not_eq_true] at hamb
                    simp only [phase2Stop, List.getElem?_cons_zero, hq,
                      List.getElem?_cons_succ]
                    simp [hsz, hamb]
              | succ j =>
                have hi2 : j + 1 < (assignBySizeGo s ps qs).2.2 + 1 := hi
                rw [phase2Stop_succ]
                exact h5 j (by omega)
            · intro hl1 hl2
              have hl1a : (assignBySizeGo s ps qs).2.2 + 1 < ps.length + 1 := hl1
              have hl2a : (assignBySizeGo s ps qs).2.2 + 1 < qs.length + 1 := hl2
              have hs : phase2Stop s (p :: ps) (q :: qs)
                  ((assignBySizeGo s ps qs).2.2 + 1) = true := by
                rw [phase2Stop_succ]
                exact h6 (by omega) (by omega)
              exact hs
            · intro i hi
              cases i with
              | zero =>
                exact ⟨p, q, by simp, by simp, Or.inr ⟨hq, by simp, by simp⟩⟩
              | succ j =>
                have hi2 : j + 1 < (assignBySizeGo s ps qs).2.2 + 1 := hi
                obtain ⟨p1, q1, hp1, hq1, hlink⟩ := h7 j (by omega)
                exact ⟨p1, q1, by simpa using hp1, by simpa using hq1, by
                  rcases hlink with ⟨a, b, c⟩ | ⟨a, b, c⟩
                  · exact Or.inl ⟨a, by simpa using b, by simpa using c⟩
                  · exact Or.inr ⟨a, by simpa using b, by simpa using c⟩⟩


/-! ## Claim C1 -/

/-- Claim C1: phase-2 size-positional matching, walking both sequences in
natural order from index 0, stops exactly at the first index where the stop
condition holds (the IMAP record carries a cached `pop3_uidl` different from
the POP3 UIDL at that index; or, with no cached UIDL there, the sizes are
unequal, size-checking is disabled, or the current POP3 size equals the next
POP3 record's size); every index before the stopping point is linked (either
it already carried the equal cached UIDL and is left untouched, or the pair
is cross-linked there); every index from the stopping point on is untouched;
and the stopping index is recorded as `first_unfound_idx`. -/
theorem claim_C1_size_positional_walk (s : Settings) (ps : List PopRec)
    (qs : List ImapRec) :
    ((pop3_uidl_assign_by_size s ps qs).first_unfound_idx ≤ ps.length ∧
     (pop3_uidl_assign_by_size s ps qs).first_unfound_idx ≤ qs.length) ∧
    (∀ i, i < (pop3_uidl_assign_by_size s ps qs).first_unfound_idx →
      phase2Stop s ps qs i = false) ∧
    ((pop3_uidl_assign_by_size s ps qs).first_unfound_idx < ps.length →
     (pop3_uidl_assign_by_size s ps qs).first_unfound_idx < qs.length →
      phase2Stop s ps qs (pop3_uidl_assign_by_size s ps qs).first_unfound_idx = true) ∧
    (∀ i, (pop3_uidl_assign_by_size s ps qs).first_unfound_idx ≤ i →
      (pop3_uidl_assign_by_size s ps qs).pop3[i]? = ps[i]? ∧
      (pop3_uidl_assign_by_size s ps qs).imap[i]? = qs[i]?) ∧
    (∀ i, i < (pop3_uidl_assign_by_size s ps qs).first_unfound_idx →
      ∃ p q, ps[i]? = some p ∧ qs[i]? = some q ∧
        ((q.pop3_uidl = some p.pop3_uidl ∧
          (pop3_uidl_assign_by_size s ps qs).pop3[i]? = some p ∧
          (pop3_uidl_assign_by_size s ps qs).imap[i]? = some q) ∨
         (q.pop3_uidl = none ∧
          (pop3_uidl_assign_by_size s ps qs).pop3[i]? =
            some { p with imap_uid := q.uid } ∧
          (pop3_uidl_assign_by_size s ps qs).imap[i]? =
            some { q with pop3_uidl := some p.pop3_uidl, pop3_seq := p.pop3_seq }))) := by
  obtain ⟨h1, h2, h3, h4, h5, h6, h7⟩ := assignBySizeGo_spec s ps qs
  exact ⟨h3, h5, h6, h4, h7⟩

/-- Closed witness for C1: scenario A has no stop before the end (index 0 is
walked past), and in scenario B the recorded `first_unfound_idx` satisfies the
stop condition (two same-sized POP3 messages). -/
theorem claim_C1_witness :
    phase2Stop defaultSettings scenarioA_pop3 scenarioA_imap 0 = false ∧
    phase2Stop defaultSettings scenarioB_pop3 scenarioB_imap
      (pop3_uidl_assign_by_size defaultSettings scenarioB_pop3 scenarioB_imap).first_unfound_idx
      = true := by
  constructor
  · exact (claim_C1_size_positional_walk defaultSettings scenarioA_pop3
      scenarioA_imap).2.1 0 (by decide)
  · exact (claim_C1_size_positional_walk defaultSettings scenarioB_pop3
      scenarioB_imap).2.2.1 (by decide) (by decide)

/-! ## Claim C6 -/

/-- Claim C6 (code bug witness): with POP3 UIDLs a, b and IMAP cached UIDLs
a, b — both sides already sorted ascending — the phase-1 merge-join of
`pop3_uidl_assign_cached` links only the first pair.  The second IMAP
record's cached UIDL string-equals the second POP3 record's UIDL, yet neither
record is linked (the POP3 record keeps `imap_uid = 0`, the IMAP record keeps
`pop3_seq = 0`): the inner cursor loop breaks on `ret >= 0`, so the cursor
can never advance past a POP3 UIDL smaller than the IMAP UIDL, which
contradicts the spec's merge-join ("on inequality, advance the smaller side";
"links a pair exactly when the IMAP record's cached UIDL string-equals a POP3
record's UIDL"). -/
theorem claim_C6_merge_join_bug_eval :
    (pop3_uidl_assign_cached defaultSettings cachePair_pop3 cachePair_imap).1.map
      PopRec.imap_uid = [1, 0] ∧
    (pop3_uidl_assign_cached defaultSettings cachePair_pop3 cachePair_imap).2.map
      ImapRec.pop3_seq = [1, 0] ∧
    cachePair_imap.map ImapRec.pop3_uidl = [some [97], some [98]] ∧
    cachePair_pop3.map PopRec.pop3_uidl = [[97], [98]] := by decide

/-! ## Phase-1 lemmas -/

/-- Phase 1's merge loop never rewrites an IMAP record's `uid` or cached
`pop3_uidl` (it only fills `pop3_seq`): the `(uid, pop3_uidl)` pairs of the
output IMAP list equal those of the input, position by position. -/
theorem assignCachedGo_imap_pairs :
    ∀ (qs : List ImapRec) (ps : List PopRec) (pidx : Nat),
      (assignCachedGo ps pidx qs).2.map (fun q => (q.uid, q.pop3_uidl)) =
        qs.map (fun q => (q.uid, q.pop3_uidl)) := by
  intro qs
  induction qs with
  | nil => intro ps pidx; simp [assignCachedGo]
  | cons q qs ih =>
    intro ps pidx
    cases hq : q.pop3_uidl with
    | none =>
      have hr : assignCachedGo ps pidx (q :: qs) =
          ((assignCachedGo ps pidx qs).1, q :: (assignCachedGo ps pidx qs).2) := by
        simp [assignCachedGo, hq]
      rw [hr]
      simp [ih ps pidx]
    | some u =>
      cases hpj : ps[findBreakIdx u ps pidx]? with
      | none =>
        have hr : assignCachedGo ps pidx (q :: qs) =
            ((assignCachedGo ps (findBreakIdx u ps pidx) qs).1,
             q :: (assignCachedGo ps (findBreakIdx u ps pidx) qs).2) := by
          simp [assignCachedGo, hq, hpj]
        rw [hr]
        simp [ih]
      | some p =>
        by_cases he : strcmpB u p.pop3_uidl = .eq
        · have hr : assignCachedGo ps pidx (q :: qs) =
              ((assignCachedGo (ps.set (findBreakIdx u ps pidx)
                  { p with imap_uid := q.uid }) (findBreakIdx u ps pidx) qs).1,
               { q with pop3_seq := p.pop3_seq } ::
                 (assignCachedGo (ps.set (findBreakIdx u ps pidx)
                    { p with imap_uid := q.uid }) (findBreakIdx u ps pidx) qs).2) := by
            simp [assignCachedGo, hq, hpj, he]
          rw [hr]
          simp [ih]
        · have hr : assignCachedGo ps pidx (q :: qs) =
              ((assignCachedGo ps (findBreakIdx u ps pidx) qs).1,
               q :: (assignCachedGo ps (findBreakIdx u ps pidx) qs).2) := by
            simp [assignCachedGo, hq, hpj, he]
          rw [hr]
          simp [ih]

/-- Every POP3 record coming out of the phase-1 merge loop is either an input
record untouched or an input record whose `imap_uid` was set to the `uid` of
an output IMAP record carrying exactly its UIDL. -/
theorem assignCachedGo_pop3_from :
    ∀ (qs : List ImapRec) (ps : List PopRec) (pidx : Nat),
      ∀ p2 ∈ (assignCachedGo ps pidx qs).1,
        p2 ∈ ps ∨ ∃ p ∈ ps, ∃ q2 ∈ (assignCachedGo ps pidx qs).2,
          p2 = { p with imap_uid := q2.uid } ∧ q2.pop3_uidl = some p.pop3_uidl := by
  intro qs
  induction qs with
  | nil =>
    intro ps pidx p2 hp2
    simp [assignCachedGo] at hp2
    exact Or.inl hp2
  | cons q qs ih =>
    intro ps pidx p2 hp2
    cases hq : q.pop3_uidl with
    | none =>
      have hr : assignCachedGo ps pidx (q :: qs) =
          ((assignCachedGo ps pidx qs).1, q :: (assignCachedGo ps pidx qs).2) := by
        simp [assignCachedGo, hq]
      rw [hr] at hp2 ⊢
      rcases ih ps pidx p2 (by simpa using hp2) with hmem | ⟨p, hp, q2, hq2, he1, he2⟩
      · exact Or.inl hmem
      · exact Or.inr ⟨p, hp, q2, by simp [hq2], he1, he2⟩
    | some u =>
      cases hpj : ps[findBreakIdx u ps pidx]? with
      | none =>
        have hr : assignCachedGo ps pidx (q :: qs) =
            ((assignCachedGo ps (findBreakIdx u ps pidx) qs).1,
             q :: (assignCachedGo ps (findBreakIdx u ps pidx) qs).2) := by
          simp [assignCachedGo, hq, hpj]
        rw [hr] at hp2 ⊢
        rcases ih ps (findBreakIdx u ps pidx) p2 (by simpa using hp2) with
          hmem | ⟨p, hp, q2, hq2, he1, he2⟩
        · exact Or.inl hmem
        · exact Or.inr ⟨p, hp, q2, by simp [hq2], he1, he2⟩
      | some p =>
        by_cases he : strcmpB u p.pop3_uidl = .eq
        · have hu : u = p.pop3_uidl := (strcmpB_eq_iff _ _).mp he
          have hr : assignCachedGo ps pidx (q :: qs) =
              ((assignCachedGo (ps.set (findBreakIdx u ps pidx)
                  { p with imap_uid := q.uid }) (findBreakIdx u ps pidx) qs).1,
               { q with pop3_seq := p.pop3_seq } ::
                 (assignCachedGo (ps.set (findBreakIdx u ps pidx)
                    { p with imap_uid := q.uid }) (findBreakIdx u ps pidx) qs).2) := by
            simp [assignCachedGo, hq, hpj, he]
          rw [hr] at hp2 ⊢
          have hpm : p ∈ ps := List.getElem?_mem hpj
          rcases ih (ps.set (findBreakIdx u ps pidx) { p with imap_uid := q.uid })
              (findBreakIdx u ps pidx) p2 (by simpa using hp2) with
            hmem | ⟨p3, hp3, q2, hq2, he1, he2⟩
          · rcases List.mem_or_eq_of_mem_set hmem with hmem2 | heq
            · exact Or.inl hmem2
            · refine Or.inr ⟨p, hpm, { q with pop3_seq := p.pop3_seq }, by simp, ?_, ?_⟩
              · rw [heq]
              · simp [hq, hu]
          · rcases List.mem_or_eq_of_mem_set hp3 with hmem2 | heq
            · exact Or.inr ⟨p3, hmem2, q2, by simp [hq2], he1, he2⟩
            · refine Or.inr ⟨p, hpm, q2, by simp [hq2], ?_, ?_⟩
              · rw [he1, heq]
              · rw [he2, heq]
        · have hr : assignCachedGo ps pidx (q :: qs) =
              ((assignCachedGo ps (findBreakIdx u ps pidx) qs).1,
               q :: (assignCachedGo ps (findBreakIdx u ps pidx) qs).2) := by
            simp [assignCachedGo, hq, hpj, he]
          rw [hr] at hp2 ⊢
          rcases ih ps (findBreakIdx u ps pidx) p2 (by simpa using hp2) with
            hmem | ⟨p3, hp3, q2, hq2, he1, he2⟩
          · exact Or.inl hmem
          · exact Or.inr ⟨p3, hp3, q2, by simp [hq2], he1, he2⟩

/-! ## Phase-2 derived preservation lemmas -/

/-- Phase 2 passes every IMAP record that already carries a `pop3_uidl`
through unchanged, at its own position. -/
theorem assignBySize_imap_keep (s : Settings) (ps : List PopRec)
    (qs : List ImapRec) (i : Nat) (q : ImapRec) (hq : qs[i]? = some q)
    (hne : q.pop3_uidl ≠ none) :
    (pop3_uidl_assign_by_size s ps qs).imap[i]? = some q := by
  obtain ⟨h1, h2, h3, h4, h5, h6, h7⟩ := assignBySizeGo_spec s ps qs
  by_cases hi : i < (assignBySizeGo s ps qs).2.2
  · obtain ⟨p1, q1, hp1, hq1, hlink⟩ := h7 i hi
    rw [hq] at hq1
    injection hq1 with hq1
    subst hq1
    rcases hlink with ⟨a, b, c⟩ | ⟨a, b, c⟩
    · exact c
    · exact absurd a hne
  · exact ((h4 i (by omega)).2).trans hq

/-- Every POP3 record coming out of phase 2 is either an input record
untouched or carries a link to the output IMAP record at its position, which
then holds exactly its UIDL. -/
theorem assignBySize_pop3_from (s : Settings) (ps : List PopRec)
    (qs : List ImapRec) :
    ∀ p2 ∈ (pop3_uidl_assign_by_size s ps qs).pop3,
      p2 ∈ ps ∨ ∃ q2 ∈ (pop3_uidl_assign_by_size s ps qs).imap,
        p2.imap_uid = q2.uid ∧ q2.pop3_uidl = some p2.pop3_uidl := by
  obtain ⟨h1, h2, h3, h4, h5, h6, h7⟩ := assignBySizeGo_spec s ps qs
  intro p2 hp2
  obtain ⟨i, hget⟩ := List.mem_iff_getElem?.mp hp2
  by_cases hi : i < (assignBySizeGo s ps qs).2.2
  · obtain ⟨p1, q1, hp1, hq1, hlink⟩ := h7 i hi
    rcases hlink with ⟨a, b, c⟩ | ⟨a, b, c⟩
    · left
      have : p2 = p1 := by
        have := hget.symm.trans b
        injection this
      rw [this]
      exact List.getElem?_mem hp1
    · right
      have hp2eq : p2 = { p1 with imap_uid := q1.uid } := by
        have := hget.symm.trans b
        injection this
      refine ⟨{ q1 with pop3_uidl := some p1.pop3_uidl, pop3_seq := p1.pop3_seq },
        List.getElem?_mem c, ?_, ?_⟩
      · rw [hp2eq]
      · rw [hp2eq]
  · left
    have hthis : (pop3_uidl_assign_by_size s ps qs).pop3[i]? = ps[i]? :=
      (h4 i (by omega)).1
    rw [hget] at hthis
    exact List.getElem?_mem hthis.symm

/-! ## Phase-3 merge preservation lemmas -/

/-- The phase-3 merge loop passes records through unchanged, position by
position, whenever their skip condition holds: a POP3 record without a digest
or already linked, and an IMAP record without a digest or already carrying a
UIDL. -/
theorem assignByHdrGoF_pointwise (fuel : Nat) :
    ∀ (ps : List PopRec) (qs : List ImapRec),
      (∀ (i : Nat) (p : PopRec), ps[i]? = some p →
        (p.hdr_sha1_set = false ∨ p.imap_uid ≠ 0) →
        (assignByHdrGoF fuel ps qs).1[i]? = some p) ∧
      (∀ (i : Nat) (q : ImapRec), qs[i]? = some q →
        (q.hdr_sha1_set = false ∨ q.pop3_uidl ≠ none) →
        (assignByHdrGoF fuel ps qs).2[i]? = some q) := by
  induction fuel with
  | zero =>
    intro ps qs
    refine ⟨?_, ?_⟩ <;> intro i x h hc <;> simpa [assignByHdrGoF] using h
  | succ fuel ih =>
    intro ps qs
    cases ps with
    | nil =>
      refine ⟨?_, ?_⟩ <;> intro i x h hc <;> simpa [assignByHdrGoF] using h
    | cons p ps =>
      cases qs with
      | nil =>
        refine ⟨?_, ?_⟩ <;> intro i x h hc <;> simpa [assignByHdrGoF] using h
      | cons q qs =>
        by_cases hp : (!p.hdr_sha1_set || p.imap_uid != 0) = true
        · have hr : assignByHdrGoF (fuel + 1) (p :: ps) (q :: qs) =
              (p :: (assignByHdrGoF fuel ps (q :: qs)).1,
               (assignByHdrGoF fuel ps (q :: qs)).2) := by
            simp [assignByHdrGoF, hp]
          rw [hr]
          refine ⟨?_, fun i q2 h hcond => (ih ps (q :: qs)).2 i q2 h hcond⟩
          intro i p2 h hcond
          cases i with
          | zero => simpa using h
          | succ j =>
            simp only [List.getElem?_cons_succ] at h ⊢
            exact (ih ps (q :: qs)).1 j p2 h hcond
        · by_cases hq : (!q.hdr_sha1_set || q.pop3_uidl.isSome) = true
          · have hr : assignByHdrGoF (fuel + 1) (p :: ps) (q :: qs) =
                ((assignByHdrGoF fuel (p :: ps) qs).1,
                 q :: (assignByHdrGoF fuel (p :: ps) qs).2) := by
              simp [assignByHdrGoF, hp, hq]
            rw [hr]
            refine ⟨fun i p2 h hcond => (ih (p :: ps) qs).1 i p2 h hcond, ?_⟩
            intro i q2 h hcond
            cases i with
            | zero => simpa using h
            | succ j =>
              simp only [List.getElem?_cons_succ] at h ⊢
              exact (ih (p :: ps) qs).2 j q2 h hcond
          · -- both records participate in the digest comparison
            rw [Bool.or_eq_true, not_or] at hp hq
            have hpb1 : p.hdr_sha1_set = true := by simpa using hp.1
            have hpb2 : p.imap_uid = 0 := by simpa using hp.2
            have hqb1 : q.hdr_sha1_set = true := by simpa using hq.1
            have hqb2 : q.pop3_uidl = none := by
              have := hq.2
              simpa [Option.isSome_iff_ne_none] using this
            cases hcmp : strcmpB p.hdr_sha1 q.hdr_sha1 with
            | lt =>
              have hr : assignByHdrGoF (fuel + 1) (p :: ps) (q :: qs) =
                  (p :: (assignByHdrGoF fuel ps (q :: qs)).1,
                   (assignByHdrGoF fuel ps (q :: qs)).2) := by
                simp [assignByHdrGoF, hpb1, hpb2, hqb1, hqb2, hcmp]
              rw [hr]
              refine ⟨?_, fun i q2 h hcond => (ih ps (q :: qs)).2 i q2 h hcond⟩
              intro i p2 h hcond
              cases i with
              | zero => simpa using h
              | succ j =>
                simp only [List.getElem?_cons_succ] at h ⊢
                exact (ih ps (q :: qs)).1 j p2 h hcond
            | gt =>
              have hr : assignByHdrGoF (fuel + 1) (p :: ps) (q :: qs) =
                  ((assignByHdrGoF fuel (p :: ps) qs).1,
                   q :: (assignByHdrGoF fuel (p :: ps) qs).2) := by
                simp [assignByHdrGoF, hpb1, hpb2, hqb1, hqb2, hcmp]
              rw [hr]
              refine ⟨fun i p2 h hcond => (ih (p :: ps) qs).1 i p2 h hcond, ?_⟩
              intro i q2 h hcond
              cases i with
              | zero => simpa using h
              | succ j =>
                simp only [List.getElem?_cons_succ] at h ⊢
                exact (ih (p :: ps) qs).2 j q2 h hcond
            | eq =>
              have hr : assignByHdrGoF (fuel + 1) (p :: ps) (q :: qs) =
                  ({ p with imap_uid := q.uid } :: (assignByHdrGoF fuel ps qs).1,
                   { q with pop3_uidl := some p.pop3_uidl, pop3_seq := p.pop3_seq } ::
                     (assignByHdrGoF fuel ps qs).2) := by
                simp [assignByHdrGoF, hpb1, hpb2, hqb1, hqb2, hcmp]
              rw [hr]
              constructor
              · intro i p2 h hcond
                cases i with
                | zero =>
                  have hp2 : p2 = p := by
                    have := h
                    simp at this
                    exact this.symm
                  subst hp2
                  rcases hcond with hcond | hcond
                  · rw [hpb1] at hcond; exact Bool.noConfusion hcond
                  · exact absurd hpb2 hcond
                | succ j =>
                  simp only [List.getElem?_cons_succ] at h ⊢
                  exact (ih ps qs).1 j p2 h hcond
              · intro i q2 h hcond
                cases i with
                | zero =>
                  have hq2 : q2 = q := by
                    have := h
                    simp at this
                    exact this.symm
                  subst hq2
                  rcases hcond with hcond | hcond
                  · rw [hqb1] at hcond; exact Bool.noConfusion hcond
                  · exact absurd hqb2 hcond
                | succ j =>
                  simp only [List.getElem?_cons_succ] at h ⊢
                  exact (ih ps qs).2 j q2 h hcond

/-! ## Claim C2 -/

/-- Claim C2 (counterexample): the claim says a POP3 record whose `imap_uid`
was set by phase 1 is never re-linked to a different IMAP UID by a later
phase.  On one POP3 record (UIDL b, size 10) and two IMAP records (UID 1 of
size 10 with nothing cached, UID 2 with cached UIDL b), phase 1 sets the POP3
record's `imap_uid` to 2 — non-empty — and the full sync (phase 2, walking by
position and checking only the IMAP side's cached UIDL) then overwrites it
with 1. -/
theorem claim_C2_counterexample :
    (pop3_uidl_assign_cached defaultSettings overwrite_pop3 overwrite_imap).1.map
      PopRec.imap_uid = [2] ∧
    (uidlSyncMatch defaultSettings overwrite_pop3 overwrite_imap).map
      (fun r => r.1.map PopRec.imap_uid) = some [1] := by decide

/-- Claim C2 (amended): the IMAP-side cross-link is never overwritten — phase
1 never rewrites any IMAP record's `uid` or cached `pop3_uidl` (it only fills
`pop3_seq`), phase 2 passes every IMAP record that already carries a
`pop3_uidl` through unchanged, and the phase-3 merge passes both every
already-linked POP3 record and every IMAP record with a `pop3_uidl` through
unchanged.  (The un-amended part of the claim fails only in that phase 2 may
overwrite a POP3 record's `imap_uid` set by phase 1, as the counterexample
shows.) -/
theorem claim_C2_amended_no_overwrite (s : Settings) (pop3 : List PopRec)
    (imap : List ImapRec) :
    ((pop3_uidl_assign_cached s pop3 imap).2.map (fun q => (q.uid, q.pop3_uidl)) =
      (if s.skip_uidl_cache then imap else sortImapByUidl imap).map
        (fun q => (q.uid, q.pop3_uidl))) ∧
    (∀ (i : Nat) (q : ImapRec), imap[i]? = some q → q.pop3_uidl ≠ none →
      (pop3_uidl_assign_by_size s pop3 imap).imap[i]? = some q) ∧
    (∀ (i : Nat) (p : PopRec), pop3[i]? = some p → p.imap_uid ≠ 0 →
      (assignByHdrGo pop3 imap).1[i]? = some p) ∧
    (∀ (i : Nat) (q : ImapRec), imap[i]? = some q → q.pop3_uidl ≠ none →
      (assignByHdrGo pop3 imap).2[i]? = some q) := by
  refine ⟨?_, ?_, ?_, ?_⟩
  · by_cases hskip : s.skip_uidl_cache
    · simp [pop3_uidl_assign_cached, hskip]
    · simp only [pop3_uidl_assign_cached, hskip, if_neg, Bool.false_eq_true,
        ite_false]
      exact assignCachedGo_imap_pairs (sortImapByUidl imap) (sortPopByUidl pop3) 0
  · intro i q hq hne
    exact assignBySize_imap_keep s pop3 imap i q hq hne
  · intro i p hp hne
    exact (assignByHdrGoF_pointwise (pop3.length + imap.length) pop3 imap).1 i p hp
      (Or.inr hne)
  · intro i q hq hne
    exact (assignByHdrGoF_pointwise (pop3.length + imap.length) pop3 imap).2 i q hq
      (Or.inr hne)

/-- Closed witness for the amended C2, at the counterexample input: the IMAP
record with cached UIDL b (UID 2, position 1) survives phase 2 unchanged. -/
theorem claim_C2_amended_witness :
    (pop3_uidl_assign_by_size defaultSettings overwrite_pop3 overwrite_imap).imap[1]? =
      some (mkImap 2 99 (some [98])) := by
  exact (claim_C2_amended_no_overwrite defaultSettings overwrite_pop3
    overwrite_imap).2.1 1 (mkImap 2 99 (some [98])) (by decide) (by decide)

/-- Every POP3 record coming out of the phase-3 merge loop is either an input
record untouched or carries a link to an output IMAP record holding exactly
its UIDL. -/
theorem assignByHdrGoF_pop3_from (fuel : Nat) :
    ∀ (ps : List PopRec) (qs : List ImapRec),
      ∀ p2 ∈ (assignByHdrGoF fuel ps qs).1,
        p2 ∈ ps ∨ ∃ q2 ∈ (assignByHdrGoF fuel ps qs).2,
          p2.imap_uid = q2.uid ∧ q2.pop3_uidl = some p2.pop3_uidl := by
  induction fuel with
  | zero =>
    intro ps qs p2 hp2
    simp only [assignByHdrGoF] at hp2
    exact Or.inl hp2
  | succ fuel ih =>
    intro ps qs
    cases ps with
    | nil =>
      intro p2 hp2
      simp [assignByHdrGoF] at hp2
    | cons p ps =>
      cases qs with
      | nil =>
        intro p2 hp2
        simp only [assignByHdrGoF] at hp2
        exact Or.inl hp2
      | cons q qs =>
        by_cases hp : (!p.hdr_sha1_set || p.imap_uid != 0) = true
        · have hr : assignByHdrGoF (fuel + 1) (p :: ps) (q :: qs) =
              (p :: (assignByHdrGoF fuel ps (q :: qs)).1,
               (assignByHdrGoF fuel ps (q :: qs)).2) := by
            simp [assignByHdrGoF, hp]
          rw [hr]
          intro p2 hp2
          rcases List.mem_cons.mp hp2 with heq | hp2
          · exact Or.inl (heq ▸ List.mem_cons_self p ps)
          · rcases ih ps (q :: qs) p2 hp2 with hmem | ⟨q2, hq2, h1, h2⟩
            · exact Or.inl (List.mem_cons_of_mem p hmem)
            · exact Or.inr ⟨q2, hq2, h1, h2⟩
        · by_cases hq : (!q.hdr_sha1_set || q.pop3_uidl.isSome) = true
          · have hr : assignByHdrGoF (fuel + 1) (p :: ps) (q :: qs) =
                ((assignByHdrGoF fuel (p :: ps) qs).1,
                 q :: (assignByHdrGoF fuel (p :: ps) qs).2) := by
              simp [assignByHdrGoF, hp, hq]
            rw [hr]
            intro p2 hp2
            rcases ih (p :: ps) qs p2 hp2 with hmem | ⟨q2, hq2, h1, h2⟩
            · exact Or.inl hmem
            · exact Or.inr ⟨q2, List.mem_cons_of_mem q hq2, h1, h2⟩
          · rw [Bool.or_eq_true, not_or] at hp hq
            have hpb1 : p.hdr_sha1_set = true := by simpa using hp.1
            have hpb2 : p.imap_uid = 0 := by simpa using hp.2
            have hqb1 : q.hdr_sha1_set = true := by simpa using hq.1
            have hqb2 : q.pop3_uidl = none := by
              have := hq.2
              simpa [Option.isSome_iff_ne_none] using this
            cases hcmp : strcmpB p.hdr_sha1 q.hdr_sha1 with
            | lt =>
              have hr : assignByHdrGoF (fuel + 1) (p :: ps) (q :: qs) =
                  (p :: (assignByHdrGoF fuel ps (q :: qs)).1,
                   (assignByHdrGoF fuel ps (q :: qs)).2) := by
                simp [assignByHdrGoF, hpb1, hpb2, hqb1, hqb2, hcmp]
              rw [hr]
              intro p2 hp2
              rcases List.mem_cons.mp hp2 with heq | hp2
              · exact Or.inl (heq ▸ List.mem_cons_self p ps)
              · rcases ih ps (q :: qs) p2 hp2 with hmem | ⟨q2, hq2, h1, h2⟩
                · exact Or.inl (List.mem_cons_of_mem p hmem)
                · exact Or.inr ⟨q2, hq2, h1, h2⟩
            | gt =>
              have hr : assignByHdrGoF (fuel + 1) (p :: ps) (q :: qs) =
                  ((assignByHdrGoF fuel (p :: ps) qs).1,
                   q :: (assignByHdrGoF fuel (p :: ps) qs).2) := by
                simp [assignByHdrGoF, hpb1, hpb2, hqb1, hqb2, hcmp]
              rw [hr]
              intro p2 hp2
              rcases ih (p :: ps) qs p2 hp2 with hmem | ⟨q2, hq2, h1, h2⟩
              · exact Or.inl hmem
              · exact Or.inr ⟨q2, List.mem_cons_of_mem q hq2, h1, h2⟩
            | eq =>
              have hr : assignByHdrGoF (fuel + 1) (p :: ps) (q :: qs) =
                  ({ p with imap_uid := q.uid } :: (assignByHdrGoF fuel ps qs).1,
                   { q with pop3_uidl := some p.pop3_uidl, pop3_seq := p.pop3_seq } ::
                     (assignByHdrGoF fuel ps qs).2) := by
                simp [assignByHdrGoF, hpb1, hpb2, hqb1, hqb2, hcmp]
              rw [hr]
              intro p2 hp2
              rcases List.mem_cons.mp hp2 with heq | hp2
              · have hm : { q with pop3_uidl := some p.pop3_uidl, pop3_seq := p.pop3_seq } ∈
                    ({ q with pop3_uidl := some p.pop3_uidl, pop3_seq := p.pop3_seq } ::
                      (assignByHdrGoF fuel ps qs).2) := List.mem_cons_self _ _
                refine Or.inr ⟨_, hm, ?_, ?_⟩
                · rw [heq]
                · rw [heq]
              · rcases ih ps qs p2 hp2 with hmem | ⟨q2, hq2, h1, h2⟩
                · exact Or.inl (List.mem_cons_of_mem p hmem)
                · exact Or.inr ⟨q2, List.mem_cons_of_mem _ hq2, h1, h2⟩

/-! ## Consistency transfer -/

/-- One matching step preserves POP3-to-IMAP link consistency as soon as it
keeps every linked IMAP record's `(uid, pop3_uidl)` pair available and every
POP3 record it touches points at an output IMAP record holding its UIDL. -/
theorem popToImapConsistent_step (ps ps2 : List PopRec) (qs qs2 : List ImapRec)
    (hkeep : ∀ q ∈ qs, q.pop3_uidl ≠ none →
      ∃ q2 ∈ qs2, q2.uid = q.uid ∧ q2.pop3_uidl = q.pop3_uidl)
    (hfrom : ∀ p2 ∈ ps2, p2 ∈ ps ∨ ∃ q2 ∈ qs2,
      p2.imap_uid = q2.uid ∧ q2.pop3_uidl = some p2.pop3_uidl)
    (hcons : PopToImapConsistent ps qs) : PopToImapConsistent ps2 qs2 := by
  intro p2 hp2 hne
  rcases hfrom p2 hp2 with hmem | ⟨q2, hq2, ha, hb⟩
  · obtain ⟨q, hq, hu, hl⟩ := hcons p2 hmem hne
    obtain ⟨q2, hq2, hu2, hl2⟩ := hkeep q hq (by rw [hl]; exact Option.some_ne_none _)
    exact ⟨q2, hq2, by rw [hu2, hu], by rw [hl2, hl]⟩
  · exact ⟨q2, hq2, ha.symm, hb⟩

/-- Permuting both sides preserves link consistency. -/
theorem popToImapConsistent_perm (ps ps2 : List PopRec) (qs qs2 : List ImapRec)
    (hp : ∀ p ∈ ps2, p ∈ ps) (hq : ∀ q ∈ qs, q ∈ qs2)
    (hcons : PopToImapConsistent ps qs) : PopToImapConsistent ps2 qs2 := by
  intro p hpm hne
  obtain ⟨q, hqm, h1, h2⟩ := hcons p (hp p hpm) hne
  exact ⟨q, hq q hqm, h1, h2⟩

/-- Consistency of the phase-3 wrapper: when `pop3_uidl_assign_by_hdr_hash`
succeeds, it preserves link consistency. -/
theorem assign_by_hdr_hash_consistent (s : Settings) (ps : List PopRec)
    (qs : List ImapRec) (out2 : List PopRec × List ImapRec)
    (hc : PopToImapConsistent ps qs)
    (h : pop3_uidl_assign_by_hdr_hash s ps qs = some out2) :
    PopToImapConsistent out2.1 out2.2 := by
  simp only [pop3_uidl_assign_by_hdr_hash] at h
  by_cases hf : reconcileFails s
      (assignByHdrGo (sortPopByHdr ps) (sortImapByHdr qs)).1
      (sortImapByHdr qs).length = true
  · rw [if_pos hf] at h
    cases h
  · rw [if_neg hf] at h
    injection h with h
    subst h
    have hc1 : PopToImapConsistent (sortPopByHdr ps) (sortImapByHdr qs) :=
      popToImapConsistent_perm ps (sortPopByHdr ps) qs (sortImapByHdr qs)
        (fun p hp => (List.perm_insertionSort _ ps).subset hp)
        (fun q hq => (List.perm_insertionSort _ qs).symm.subset hq) hc
    have hc2 : PopToImapConsistent
        (assignByHdrGo (sortPopByHdr ps) (sortImapByHdr qs)).1
        (assignByHdrGo (sortPopByHdr ps) (sortImapByHdr qs)).2 := by
      refine popToImapConsistent_step _ _ _ _ ?_ ?_ hc1
      · intro q hq hne
        refine ⟨q, ?_, rfl, rfl⟩
        obtain ⟨i, hget⟩ := List.mem_iff_getElem?.mp hq
        exact List.getElem?_mem ((assignByHdrGoF_pointwise _ _ _).2 i q hget
          (Or.inr hne))
      · exact assignByHdrGoF_pop3_from _ _ _
    refine popToImapConsistent_perm _ _ _ _ ?_ ?_ hc2
    · intro p hp
      exact (List.perm_insertionSort _ _).subset hp
    · intro q hq
      exact (List.perm_insertionSort _ _).symm.subset hq

/-! ## Claim C3 -/

/-- Claim C3 (counterexample): the claim says that after a successful sync
the mapping is bidirectionally consistent — in particular no IMAP record
holds a UIDL whose POP3 record points at a different UID.  On one POP3
record (UIDL b) and IMAP records UID 1 (size match, no cache) and UID 2
(cached UIDL b), the sync succeeds and ends with the POP3 record linked to
UID 1 while IMAP record UID 2 still holds UIDL b: a record pointing at a
different UID than the POP3 record it names. -/
theorem claim_C3_counterexample :
    (uidlSyncMatch defaultSettings overwrite_pop3 overwrite_imap).map
      (fun r => (r.1.map (fun p => (p.pop3_uidl, p.imap_uid)),
                 r.2.1.map (fun q => (q.uid, q.pop3_uidl)))) =
      some ([([98], 1)], [(1, some [98]), (2, some [98])]) := by decide

/-- Claim C3 (amended): after a successful sync the mapping is consistent in
the POP3-to-IMAP direction — every POP3 record with a non-zero `imap_uid`
points at an IMAP record in the final map that carries exactly that record's
UIDL.  (The IMAP-to-POP3 direction of the original claim fails, as the
counterexample shows: a stale cached UIDL can leave a second IMAP record
naming the same POP3 record.) -/
theorem claim_C3_amended_directional (s : Settings) (pop3 : List PopRec)
    (imap : List ImapRec) (hinit : ∀ p ∈ pop3, p.imap_uid = 0)
    (out : List PopRec × List ImapRec × Nat)
    (hout : uidlSyncMatch s pop3 imap = some out) :
    PopToImapConsistent out.1 out.2.1 := by
  -- phase 1 output is consistent
  have hc1 : PopToImapConsistent (pop3_uidl_assign_cached s pop3 imap).1
      (pop3_uidl_assign_cached s pop3 imap).2 := by
    by_cases hskip : s.skip_uidl_cache
    · simp only [pop3_uidl_assign_cached, hskip, if_true]
      intro p hp hne
      exact absurd (hinit p hp) hne
    · have hr : pop3_uidl_assign_cached s pop3 imap =
          assignCachedGo (sortPopByUidl pop3) 0 (sortImapByUidl imap) := by
        simp [pop3_uidl_assign_cached, hskip]
      rw [hr]
      intro p2 hp2 hne
      rcases assignCachedGo_pop3_from (sortImapByUidl imap) (sortPopByUidl pop3) 0
          p2 hp2 with hmem | ⟨p, hp, q2, hq2, he1, he2⟩
      · have hmem2 : p2 ∈ pop3 := (List.perm_insertionSort _ pop3).subset hmem
        exact absurd (hinit p2 hmem2) hne
      · refine ⟨q2, hq2, ?_, ?_⟩
        · rw [he1]
        · rw [he2, he1]
  -- natural-order sorts preserve consistency
  have hc2 : PopToImapConsistent (sortPopBySeq (pop3_uidl_assign_cached s pop3 imap).1)
      (sortImapByUid (pop3_uidl_assign_cached s pop3 imap).2) :=
    popToImapConsistent_perm _ _ _ _
      (fun p hp => (List.perm_insertionSort _ _).subset hp)
      (fun q hq => (List.perm_insertionSort _ _).symm.subset hq) hc1
  -- phase 2 preserves consistency
  have hc3 : PopToImapConsistent
      (pop3_uidl_assign_by_size s (sortPopBySeq (pop3_uidl_assign_cached s pop3 imap).1)
        (sortImapByUid (pop3_uidl_assign_cached s pop3 imap).2)).pop3
      (pop3_uidl_assign_by_size s (sortPopBySeq (pop3_uidl_assign_cached s pop3 imap).1)
        (sortImapByUid (pop3_uidl_assign_cached s pop3 imap).2)).imap := by
    refine popToImapConsistent_step _ _ _ _ ?_ ?_ hc2
    · intro q hq hne
      refine ⟨q, ?_, rfl, rfl⟩
      obtain ⟨i, hget⟩ := List.mem_iff_getElem?.mp hq
      exact List.getElem?_mem (assignBySize_imap_keep s _ _ i q hget hne)
    · exact assignBySize_pop3_from s _ _
  -- connect to the pipeline result
  simp only [uidlSyncMatch] at hout
  by_cases hall : (pop3_uidl_assign_by_size s
      (sortPopBySeq (pop3_uidl_assign_cached s pop3 imap).1)
      (sortImapByUid (pop3_uidl_assign_cached s pop3 imap).2)).all_matched = true
  · rw [if_pos hall] at hout
    injection hout with hout
    subst hout
    exact hc3
  · rw [if_neg hall] at hout
    cases hh : pop3_uidl_assign_by_hdr_hash s
        (pop3_uidl_assign_by_size s (sortPopBySeq (pop3_uidl_assign_cached s pop3 imap).1)
          (sortImapByUid (pop3_uidl_assign_cached s pop3 imap).2)).pop3
        (pop3_uidl_assign_by_size s (sortPopBySeq (pop3_uidl_assign_cached s pop3 imap).1)
          (sortImapByUid (pop3_uidl_assign_cached s pop3 imap).2)).imap with
    | none =>
      rw [hh] at hout
      cases hout
    | some pr =>
      rw [hh] at hout
      injection hout with hout
      subst hout
      exact assign_by_hdr_hash_consistent s _ _ pr hc3 hh

/-- Closed witness for the amended C3: scenario A syncs successfully and the
resulting mapping is consistent in the POP3-to-IMAP direction. -/
theorem claim_C3_amended_witness :
    PopToImapConsistent
      ((uidlSyncMatch defaultSettings scenarioA_pop3 scenarioA_imap).getD
        ([], [], 0)).1
      ((uidlSyncMatch defaultSettings scenarioA_pop3 scenarioA_imap).getD
        ([], [], 0)).2.1 := by
  have h := claim_C3_amended_directional defaultSettings scenarioA_pop3 scenarioA_imap
    (by decide)
    ((uidlSyncMatch defaultSettings scenarioA_pop3 scenarioA_imap).getD ([], [], 0))
    (by decide)
  exact h

/-! ## Claim C4 -/

/-- The lists coming out of the phase-3 merge have the lengths of its
inputs. -/
theorem assignByHdrGoF_len (fuel : Nat) :
    ∀ (ps : List PopRec) (qs : List ImapRec),
      (assignByHdrGoF fuel ps qs).1.length = ps.length ∧
      (assignByHdrGoF fuel ps qs).2.length = qs.length := by
  induction fuel with
  | zero => intro ps qs; simp [assignByHdrGoF]
  | succ fuel ih =>
    intro ps qs
    cases ps with
    | nil => simp [assignByHdrGoF]
    | cons p ps =>
      cases qs with
      | nil => simp [assignByHdrGoF]
      | cons q qs =>
        simp only [assignByHdrGoF]
        split_ifs with h1 h2
        · simp [(ih ps (q :: qs)).1, (ih ps (q :: qs)).2]
        · simp [(ih (p :: ps) qs).1, (ih (p :: ps) qs).2]
        · cases hcmp : strcmpB p.hdr_sha1 q.hdr_sha1 with
          | lt => simp [hcmp, (ih ps (q :: qs)).1, (ih ps (q :: qs)).2]
          | gt => simp [hcmp, (ih (p :: ps) qs).1, (ih (p :: ps) qs).2]
          | eq => simp [hcmp, (ih ps qs).1, (ih ps qs).2]

/-- The failure decision of phase-3 reconciliation, as a proposition: the
code fails exactly when there are missing records, "all mailboxes" is off,
"ignore missing UIDLs" is off, and the extra-UIDL tolerance (ignore-extra
enabled and total IMAP count plus missing count equal to the POP3 total)
does not apply. -/
theorem reconcileFails_iff (s : Settings) (ps : List PopRec) (n : Nat) :
    reconcileFails s ps n = true ↔
      (0 < missingCount ps ∧ s.all_mailboxes = false ∧
       s.ignore_missing_uidls = false ∧
       ¬(s.ignore_extra_uidls = true ∧ n + missingCount ps = ps.length)) := by
  unfold reconcileFails
  cases ha : s.all_mailboxes <;> cases he : s.ignore_extra_uidls <;>
    cases hm : s.ignore_missing_uidls <;>
      by_cases h0 : 0 < missingCount ps <;>
        by_cases hx : n + missingCount ps = ps.length <;>
          simp_all

/-- Claim C4 (amended): after phase 3, the session fails with a
reconciliation error if and only if the count of unmatched POP3 records with
computed digests is positive, "all mailboxes" is disabled, "ignore missing
UIDLs" is disabled, and it is not the case that both "ignore extra UIDLs" is
enabled and the TOTAL IMAP record count plus the missing count equals the
POP3 total.  (The original claim's "IMAP unmatched-plus-missing count" does
not match the code, which uses `imap_count`, the total: see the
counterexample.) -/
theorem claim_C4_amended_reconciliation (s : Settings) (ps : List PopRec)
    (qs : List ImapRec) :
    pop3_uidl_assign_by_hdr_hash s ps qs = none ↔
      (0 < missingCount (assignByHdrGo (sortPopByHdr ps) (sortImapByHdr qs)).1 ∧
       s.all_mailboxes = false ∧ s.ignore_missing_uidls = false ∧
       ¬(s.ignore_extra_uidls = true ∧
         qs.length +
           missingCount (assignByHdrGo (sortPopByHdr ps) (sortImapByHdr qs)).1 =
           ps.length)) := by
  have hlen1 : (assignByHdrGo (sortPopByHdr ps) (sortImapByHdr qs)).1.length =
      ps.length := by
    simp only [assignByHdrGo]
    rw [(assignByHdrGoF_len _ _ _).1]
    exact List.length_insertionSort _ _
  have hlen2 : (sortImapByHdr qs).length = qs.length :=
    List.length_insertionSort _ _
  constructor
  · intro h
    simp only [pop3_uidl_assign_by_hdr_hash] at h
    by_cases hf : reconcileFails s
        (assignByHdrGo (sortPopByHdr ps) (sortImapByHdr qs)).1
        (sortImapByHdr qs).length = true
    · have := (reconcileFails_iff s _ _).mp hf
      rw [hlen1, hlen2] at this
      exact this
    · rw [if_neg hf] at h
      cases h
  · intro hcond
    simp only [pop3_uidl_assign_by_hdr_hash]
    have hf : reconcileFails s
        (assignByHdrGo (sortPopByHdr ps) (sortImapByHdr qs)).1
        (sortImapByHdr qs).length = true := by
      rw [reconcileFails_iff, hlen1, hlen2]
      exact hcond
    rw [if_pos hf]

/-- Claim C4 (counterexample): POP3 record a matched to UID 1, POP3 record b
missing with digest; the single IMAP record is matched, so zero IMAP records
are unmatched.  With "ignore extra UIDLs" enabled the code tolerates the
excess (total IMAP count 1 + missing 1 = POP3 total 2), but the claim's
condition — IMAP UNMATCHED count (0) plus missing (1) equal to the POP3
total (2) — is false, so the claim says the session must fail. -/
theorem claim_C4_counterexample :
    pop3_uidl_assign_by_hdr_hash extraSettings extra_pop3 extra_imap ≠ none ∧
    c4ClaimFails extraSettings
      (assignByHdrGo (sortPopByHdr extra_pop3) (sortImapByHdr extra_imap)).1
      (assignByHdrGo (sortPopByHdr extra_pop3) (sortImapByHdr extra_imap)).2 =
      true := by decide

/-- Closed witness for the amended C4: with the default (strict) settings the
same input fails — one POP3 record with a digest is unmatched and no
tolerance applies. -/
theorem claim_C4_witness :
    pop3_uidl_assign_by_hdr_hash defaultSettings extra_pop3 extra_imap = none :=
  (claim_C4_amended_reconciliation defaultSettings extra_pop3 extra_imap).mpr
    (by decide)

/-! ## Claim C10 -/

/-- Under "every unmatched POP3 record lacks a digest" the phase-3 merge
leaves the POP3 list untouched. -/
theorem assignByHdrGoF_pop3_id (fuel : Nat) :
    ∀ (ps : List PopRec) (qs : List ImapRec),
      (∀ p ∈ ps, p.hdr_sha1_set = false ∨ p.imap_uid ≠ 0) →
      (assignByHdrGoF fuel ps qs).1 = ps := by
  induction fuel with
  | zero => intro ps qs _; simp [assignByHdrGoF]
  | succ fuel ih =>
    intro ps qs hyp
    cases ps with
    | nil => simp [assignByHdrGoF]
    | cons p ps =>
      cases qs with
      | nil => simp [assignByHdrGoF]
      | cons q qs =>
        have hp : (!p.hdr_sha1_set || p.imap_uid != 0) = true := by
          rcases hyp p (List.mem_cons_self p ps) with h | h
          · simp [h]
          · simp [bne_iff_ne, h]
        have hr : assignByHdrGoF (fuel + 1) (p :: ps) (q :: qs) =
            (p :: (assignByHdrGoF fuel ps (q :: qs)).1,
             (assignByHdrGoF fuel ps (q :: qs)).2) := by
          simp [assignByHdrGoF, hp]
        rw [hr]
        simp only [List.cons.injEq, true_and]
        exact ih ps (q :: qs) (fun p2 hp2 => hyp p2 (List.mem_cons_of_mem p hp2))

/-- A record set whose unmatched records all lack digests has no missing
records. -/
theorem missingCount_eq_zero (ps : List PopRec)
    (h : ∀ p ∈ ps, p.imap_uid = 0 → p.hdr_sha1_set = false) :
    missingCount ps = 0 := by
  unfold missingCount
  rw [List.length_eq_zero, List.filter_eq_nil_iff]
  intro p hp
  by_cases h0 : p.imap_uid = 0
  · simp [h0, h p hp h0]
  · simp [h0]

/-- Claim C10: a POP3 record whose digest could not be computed because the
message was expunged (stream fetch fails with `MAIL_ERROR_EXPUNGED`, so
`get_hdr_sha1` returns 0 without persisting or setting a digest) is excluded
from the phase-3 merge-join — it passes through unchanged — and is not
counted toward the missing total, so a mailbox whose only unmatched POP3
records are such expunged ones never fails reconciliation. -/
theorem claim_C10_expunged_tolerated :
    (∀ (env : FetchEnv) (p : PopRec), env.hdr_fetch = FetchResult.errExpunged →
      (get_hdr_sha1 env).ret = 0 ∧ (get_hdr_sha1 env).persisted = none ∧
      readHdrForRec env p = some p) ∧
    (∀ (fuel i : Nat) (ps : List PopRec) (qs : List ImapRec) (p : PopRec),
      ps[i]? = some p → p.hdr_sha1_set = false →
      (assignByHdrGoF fuel ps qs).1[i]? = some p) ∧
    (∀ (s : Settings) (ps : List PopRec) (qs : List ImapRec),
      (∀ p ∈ ps, p.imap_uid = 0 → p.hdr_sha1_set = false) →
      pop3_uidl_assign_by_hdr_hash s ps qs ≠ none) := by
  refine ⟨?_, ?_, ?_⟩
  · intro env p hexp
    simp [get_hdr_sha1, readHdrForRec, hexp]
  · intro fuel i ps qs p hget hset
    exact (assignByHdrGoF_pointwise fuel ps qs).1 i p hget (Or.inl hset)
  · intro s ps qs hyp
    have hyp2 : ∀ p ∈ (assignByHdrGo (sortPopByHdr ps) (sortImapByHdr qs)).1,
        p.imap_uid = 0 → p.hdr_sha1_set = false := by
      have hid : (assignByHdrGo (sortPopByHdr ps) (sortImapByHdr qs)).1 =
          sortPopByHdr ps := by
        simp only [assignByHdrGo]
        refine assignByHdrGoF_pop3_id _ _ _ ?_
        intro p hp
        have hmem : p ∈ ps := (List.perm_insertionSort _ ps).subset hp
        by_cases h0 : p.imap_uid = 0
        · exact Or.inl (hyp p hmem h0)
        · exact Or.inr h0
      rw [hid]
      intro p hp h0
      exact hyp p ((List.perm_insertionSort _ ps).subset hp) h0
    have hmiss : missingCount (assignByHdrGo (sortPopByHdr ps) (sortImapByHdr qs)).1 = 0 :=
      missingCount_eq_zero _ hyp2
    simp only [pop3_uidl_assign_by_hdr_hash]
    have hf : reconcileFails s (assignByHdrGo (sortPopByHdr ps) (sortImapByHdr qs)).1
        (sortImapByHdr qs).length = false := by
      unfold reconcileFails
      rw [hmiss]
      simp
    rw [hf]
    simp

/-- Closed witness for C10: one expunged message (digest-read succeeds
without a digest) leaves the record unchanged, and a record set whose only
unmatched record lacks a digest passes reconciliation. -/
theorem claim_C10_witness :
    readHdrForRec expungedEnv (mkPop 1 [97] 10) = some (mkPop 1 [97] 10) ∧
    pop3_uidl_assign_by_hdr_hash defaultSettings expunged_pop3 [] ≠ none := by
  constructor
  · exact (claim_C10_expunged_tolerated.1 expungedEnv (mkPop 1 [97] 10)
      (by decide)).2.2
  · exact claim_C10_expunged_tolerated.2.2 defaultSettings expunged_pop3 []
      (by decide)

/-! ## Claim C7 -/

/-- Claim C7 (counterexample): the claim says a message hashed without ever
finding the end-of-headers marker does not have its digest persisted.  In
`truncEnv` both hashing passes report `have_eoh = false`, yet `get_hdr_sha1`
persists the body-pass digest (the C code calls `index_mail_cache_add_idx`
after the fallback unconditionally, merely logging a truncation warning). -/
theorem claim_C7_counterexample :
    (get_hdr_sha1 truncEnv).persisted = some [5] ∧
    truncEnv.hdr_hash = some ([5], false) ∧
    truncEnv.body_hash = some ([5], false) := by decide

/-- Claim C7 (amended): the header digest is persisted exactly when the
header-stream pass succeeded and found the end-of-headers marker, or the
header-stream pass succeeded without the marker and the body-stream fallback
was fetched and hashed successfully — regardless of whether the fallback
found the marker.  No fetch or stream error ever persists a digest. -/
theorem claim_C7_amended_persist_iff (env : FetchEnv) :
    (get_hdr_sha1 env).persisted ≠ none ↔
      (env.hdr_fetch = FetchResult.ok ∧
        ((∃ d, env.hdr_hash = some (d, true)) ∨
         ((∃ d, env.hdr_hash = some (d, false)) ∧
          env.body_fetch = FetchResult.ok ∧ env.body_hash ≠ none))) := by
  obtain ⟨hfetch, hhash, bfetch, bhash⟩ := env
  cases hfetch <;> simp [get_hdr_sha1]
  cases hhash with
  | none => simp
  | some dp =>
    obtain ⟨d, eoh⟩ := dp
    cases eoh
    · cases bfetch <;> simp
      cases bhash with
      | none => simp
      | some dp2 => simp
    · simp

/-! ## Claim C8 -/

/-- Processing the malformed CR-only line sets the stop flag and excludes the
line itself, whatever the incoming `*matched` value and context. -/
theorem callback_stopLine (h : HdrLine) (m : Bool) (ctx : HdrCtx)
    (hs : stopLine h = true) :
    pop3_header_filter_callback h m ctx = (true, { ctx with stop := true }) := by
  unfold stopLine at hs
  rw [Bool.and_eq_true] at hs
  obtain ⟨heoh, hcond⟩ := hs
  rw [Bool.not_eq_true'] at heoh
  unfold pop3_header_filter_callback
  rw [heoh]
  simp [hcond]

/-- Once the stop flag is set, every line — the end-of-headers marker
included — is excluded, the flag stays set, and an end-of-headers line still
records `have_eoh`. -/
theorem callback_after_stop (h : HdrLine) (m : Bool) (ctx : HdrCtx)
    (hs : ctx.stop = true) :
    (pop3_header_filter_callback h m ctx).1 = true ∧
    (pop3_header_filter_callback h m ctx).2.stop = true ∧
    (h.eoh = true → (pop3_header_filter_callback h m ctx).2.have_eoh = true) := by
  unfold pop3_header_filter_callback
  by_cases he : h.eoh
  · simp [he, hs]
  · simp only [he, if_false, Bool.false_eq_true]
    split_ifs <;> simp_all

/-- With the stop flag set, every line of the remaining stream is excluded. -/
theorem filter_headers_all_excluded :
    ∀ (lines : List (HdrLine × Bool)) (ctx : HdrCtx), ctx.stop = true →
      ∀ j, j < lines.length → (filter_headers lines ctx).1[j]? = some true := by
  intro lines
  induction lines with
  | nil => intro ctx _ j hj; simp at hj
  | cons hm tl ih =>
    intro ctx hs j hj
    obtain ⟨h, m⟩ := hm
    obtain ⟨h1, h2, _⟩ := callback_after_stop h m ctx hs
    simp only [filter_headers]
    cases j with
    | zero => simp [h1]
    | succ i =>
      simp only [List.getElem?_cons_succ]
      exact ih (pop3_header_filter_callback h m ctx).2 h2 i
        (by simpa using Nat.lt_of_succ_lt_succ hj)

/-- Claim C8: a header line with empty name, empty separator and a non-empty
value of CR bytes only sets the stop flag (and is itself excluded), and from
that line on every line of the stream is excluded from the filtered output;
an end-of-headers marker encountered after the stop is still recorded in
`have_eoh` even though the line is excluded. -/
theorem claim_C8_stop_line_truncates :
    (∀ (h : HdrLine) (m : Bool) (ctx : HdrCtx), stopLine h = true →
      pop3_header_filter_callback h m ctx = (true, { ctx with stop := true })) ∧
    (∀ (lines : List (HdrLine × Bool)) (ctx : HdrCtx) (k j : Nat)
        (h : HdrLine) (m : Bool),
      lines[k]? = some (h, m) → stopLine h = true → k ≤ j → j < lines.length →
      (filter_headers lines ctx).1[j]? = some true) ∧
    (∀ (h : HdrLine) (m : Bool) (ctx : HdrCtx), ctx.stop = true → h.eoh = true →
      (pop3_header_filter_callback h m ctx).2.have_eoh = true) := by
  refine ⟨callback_stopLine, ?_, ?_⟩
  · intro lines
    induction lines with
    | nil => intro ctx k j h m hk; simp at hk
    | cons hm0 tl ih =>
      intro ctx k j h m hk hstop hkj hj
      obtain ⟨h0, m0⟩ := hm0
      cases k with
      | zero =>
        simp only [List.getElem?_cons_zero] at hk
        injection hk with hk
        obtain ⟨hkh, hkm⟩ := Prod.mk.injEq .. |>.mp hk.symm
        subst hkh
        have hcb := callback_stopLine h m0 ctx hstop
        simp only [filter_headers, hcb]
        cases j with
        | zero => simp
        | succ i =>
          simp only [List.getElem?_cons_succ]
          exact filter_headers_all_excluded tl { ctx with stop := true } rfl i
            (by simpa using Nat.lt_of_succ_lt_succ hj)
      | succ k2 =>
        cases j with
        | zero => omega
        | succ i =>
          simp only [List.getElem?_cons_succ] at hk
          simp only [filter_headers, List.getElem?_cons_succ]
          exact ih (pop3_header_filter_callback h0 m0 ctx).2 k2 i h m hk hstop
            (by omega) (by simpa using Nat.lt_of_succ_lt_succ hj)
  · intro h m ctx hs he
    exact ((callback_after_stop h m ctx hs).2.2) he

/-- Closed witness for C8: a stream whose first line is the CR-only stopper
has its second (ordinary) line excluded. -/
theorem claim_C8_witness :
    (filter_headers [(stopLineEx, false), (normalLineEx, false)]
      { have_eoh := false, stop := false }).1[1]? = some true := by
  exact claim_C8_stop_line_truncates.2.1
    [(stopLineEx, false), (normalLineEx, false)]
    { have_eoh := false, stop := false } 0 1 stopLineEx false (by decide)
    (by decide) (by decide) (by decide)

/-! ## Claim C9 -/

/-- Claim C9: during POP3-side enumeration a message whose UIDL is empty is
skipped — every stored record has a non-empty UIDL, and the record set built
from the full enumeration equals the record set built after dropping all
empty-UIDL messages, so such messages can never contribute to any later
count (missing totals included). -/
theorem claim_C9_empty_uidl_skipped (s : Settings) (mails : List Pop3MailEntry) :
    (∀ r ∈ pop3_map_read_records s mails, r.pop3_uidl ≠ []) ∧
    pop3_map_read_records s mails =
      pop3_map_read_records s (mails.filter (fun m => !m.uidl.isEmpty)) := by
  constructor
  · intro r hr
    obtain ⟨m, hm, hf⟩ := List.mem_filterMap.mp hr
    by_cases hu : m.uidl = []
    · simp [hu] at hf
    · rw [if_neg hu] at hf
      injection hf with hf
      rw [← hf]
      exact hu
  · induction mails with
    | nil => rfl
    | cons m tl ih =>
      by_cases hu : m.uidl = []
      · have hemp : m.uidl.isEmpty = true := by simp [hu]
        simp only [pop3_map_read_records, List.filterMap_cons, List.filter_cons,
          hemp, if_neg, hu, if_pos]
        simpa [pop3_map_read_records] using ih
      · have hemp : m.uidl.isEmpty = false := by
          cases hm : m.uidl
          · exact absurd hm hu
          · simp [hm]
        simp only [pop3_map_read_records, List.filterMap_cons, List.filter_cons,
          hemp]
        rw [if_neg hu]
        simp only [Bool.not_false, if_pos]
        simp only [pop3_map_read_records, List.filterMap_cons]
        rw [if_neg hu]
        simpa [pop3_map_read_records] using ih


/-- Closed witness for C9: in an enumeration with one ordinary message and
one empty-UIDL message, the stored record (from the ordinary message) has a
non-empty UIDL. -/
theorem claim_C9_witness :
    (mkPop 1 [97] 10).pop3_uidl ≠ [] := by
  exact (claim_C9_empty_uidl_skipped defaultSettings
    [{ seq := 1, size := 10, uidl := [97] }, { seq := 2, size := 20, uidl := [] }]).1
    (mkPop 1 [97] 10) (by decide)

/-! ## Claim C5 -/

/-- Claim C5: failure is sticky per mailbox.  (1) With the failed flag set,
any query for the UIDL-backend or POP3-order field returns the
temporary-error signal, runs no sync, and leaves the flag set.  (2) A query
on a not-yet-synced, not-failed mailbox runs the sync exactly once; the
resulting state is terminal (synced or failed), so a subsequent call never
runs the sync again.  (3) A field query on a fresh mailbox triggers exactly
one synchronous sync run. -/
theorem claim_C5_sticky_failure :
    (∀ (syncOk : Bool) (st : MboxState) (imapMap : List ImapRec)
        (field : MailField) (uid : Nat),
      st.uidl_sync_failed = true → st.uidl_synced = false →
      (field = MailField.uidlBackend ∨ field = MailField.pop3Order) →
      pop3_migration_get_special syncOk st imapMap field uid =
        ({ st with uidl_sync_failed := true }, false, SpecialValue.tempError)) ∧
    (∀ (syncOk : Bool) (st : MboxState),
      st.uidl_synced = false → st.uidl_sync_failed = false →
      (pop3_migration_uidl_sync_if_needed syncOk st).2.2 = true ∧
      ((pop3_migration_uidl_sync_if_needed syncOk st).1.uidl_synced = true ∨
       (pop3_migration_uidl_sync_if_needed syncOk st).1.uidl_sync_failed = true) ∧
      (∀ syncOk2 : Bool, (pop3_migration_uidl_sync_if_needed syncOk2
          (pop3_migration_uidl_sync_if_needed syncOk st).1).2.2 = false)) ∧
    (∀ (syncOk : Bool) (imapMap : List ImapRec) (field : MailField) (uid : Nat),
      (field = MailField.uidlBackend ∨ field = MailField.pop3Order) →
      (pop3_migration_get_special syncOk
        { uidl_synced := false, uidl_sync_failed := false } imapMap field uid).2.1 =
        true) := by
  refine ⟨?_, ?_, ?_⟩
  · intro syncOk st imapMap field uid hfail hsync hfield
    have hr : pop3_migration_uidl_sync_if_needed syncOk st =
        ({ st with uidl_sync_failed := true }, false, false) := by
      simp [pop3_migration_uidl_sync_if_needed, hsync, hfail]
    simp [pop3_migration_get_special, hfield, hr]
  · intro syncOk st hsync hfail
    cases hok : syncOk
    · have hr : pop3_migration_uidl_sync_if_needed false st =
          ({ st with uidl_sync_failed := true }, false, true) := by
        simp [pop3_migration_uidl_sync_if_needed, hsync, hfail]
      rw [hr]
      refine ⟨rfl, Or.inr rfl, ?_⟩
      intro syncOk2
      simp [pop3_migration_uidl_sync_if_needed, hsync]
    · have hr : pop3_migration_uidl_sync_if_needed true st =
          ({ st with uidl_synced := true }, true, true) := by
        simp [pop3_migration_uidl_sync_if_needed, hsync, hfail]
      rw [hr]
      refine ⟨rfl, Or.inl rfl, ?_⟩
      intro syncOk2
      simp [pop3_migration_uidl_sync_if_needed]
  · intro syncOk imapMap field uid hfield
    cases hok : syncOk
    · have hr : pop3_migration_uidl_sync_if_needed false
          { uidl_synced := false, uidl_sync_failed := false } =
          ({ uidl_synced := false, uidl_sync_failed := true }, false, true) := by
        simp [pop3_migration_uidl_sync_if_needed]
      simp [pop3_migration_get_special, hfield, hr]
    · have hr : pop3_migration_uidl_sync_if_needed true
          { uidl_synced := false, uidl_sync_failed := false } =
          ({ uidl_synced := true, uidl_sync_failed := false }, true, true) := by
        simp [pop3_migration_uidl_sync_if_needed]
      cases hfind : imapMap.find? (fun q => q.uid == uid) with
      | none => simp [pop3_migration_get_special, hfield, hr, hfind]
      | some q =>
        cases hq : q.pop3_uidl with
        | none => simp [pop3_migration_get_special, hfield, hr, hfind, hq]
        | some u => simp [pop3_migration_get_special, hfield, hr, hfind, hq]

/-- Closed witness for C5: a failed mailbox returns the temporary error
without running a sync; a fresh mailbox runs the sync on first need. -/
theorem claim_C5_witness :
    pop3_migration_get_special true
      { uidl_synced := false, uidl_sync_failed := true } [] MailField.uidlBackend 5 =
      ({ uidl_synced := false, uidl_sync_failed := true }, false,
        SpecialValue.tempError) ∧
    (pop3_migration_uidl_sync_if_needed true
      { uidl_synced := false, uidl_sync_failed := false }).2.2 = true := by
  constructor
  · exact claim_C5_sticky_failure.1 true
      { uidl_synced := false, uidl_sync_failed := true } [] MailField.uidlBackend 5
      rfl rfl (Or.inl rfl)
  · exact (claim_C5_sticky_failure.2.1 true
      { uidl_synced := false, uidl_sync_failed := false } rfl rfl).1

end Pop3Migration
